import Mathlib

/-!
Verification of the spherical k-means clustering engine of `spkmeans.cpp`
(repository `spherical-k-means`, file `CPP/src/spkmeans.cpp`).

Documents are modelled as lists of real numbers (the C `float` arrays are
embedded as exact reals), partitions as lists of document indices into the
document matrix, and the iteration loop as an explicitly fuelled recursion
over an engine state.  The vector-algebra primitives live in `vectors.h`,
which is not part of the sources here; they are modelled from the
specification's §4.1 descriptions, as marked on each definition.
-/

namespace SPKMeans

/-- The convergence threshold `Q_THRESHOLD` (`#define Q_THRESHOLD 0.001`). -/
noncomputable def Q_THRESHOLD : ℝ := 0.001

/-- Modelled from the spec: `dot(a, b) -> scalar`, the "sum of elementwise
products" of two length-`n` vectors (`vec_dot(a, b, n)` of `vectors.h`). -/
def vec_dot (a b : List ℝ) (n : ℕ) : ℝ :=
  ∑ i in Finset.range n, a.getD i 0 * b.getD i 0

/-- Modelled from the spec: `norm(a) -> scalar`, the "Euclidean norm,
`sqrt(dot(a,a))`" (`vec_norm(a, n)` of `vectors.h`). -/
noncomputable def vec_norm (a : List ℝ) (n : ℕ) : ℝ :=
  Real.sqrt (vec_dot a a n)

/-- Modelled from the spec: `sum(group_of_vectors) -> vector`, the
"elementwise sum across all member vectors" (`vec_sum(vs, n, count)`). -/
def vec_sum (vs : List (List ℝ)) (n : ℕ) : List ℝ :=
  (List.range n).map (fun i => (vs.map (fun v => v.getD i 0)).sum)

/-- Modelled from the spec: `scale_in_place(a, s)`, multiplies every element
by the scalar `s` (`vec_multiply(a, n, s)`). -/
def vec_multiply (a : List ℝ) (n : ℕ) (s : ℝ) : List ℝ :=
  (List.range n).map (fun i => a.getD i 0 * s)

/-- Modelled from the spec: `divide_in_place(a, s)`, divides every element by
the scalar `s`; the spec gives the precondition `s != 0` and no guard
(`vec_divide(a, n, s)`). -/
noncomputable def vec_divide (a : List ℝ) (n : ℕ) (s : ℝ) : List ℝ :=
  (List.range n).map (fun i => a.getD i 0 / s)

/-- Modelled from the spec: `normalize_in_place(a)`, "divides `a` by
`norm(a)`"; the spec gives the precondition `norm(a) != 0` and states that the
baseline performs no guard (`vec_normalize(a, n)`). -/
noncomputable def vec_normalize (a : List ℝ) (n : ℕ) : List ℝ :=
  vec_divide a n (vec_norm a n)

/-- `txnScheme` of `spkmeans.cpp` (lines 73–77): normalizes each of the `dc`
document vectors of the matrix. -/
noncomputable def txnScheme (doc_matrix : List (List ℝ)) (dc wc : ℕ) :
    List (List ℝ) :=
  (List.range dc).map (fun i => vec_normalize (doc_matrix.getD i []) wc)

/-- The single-partition `computeQuality` overload of `spkmeans.cpp`
(lines 83–89): the dot product of the partition's member sum against its
concept vector. -/
noncomputable def computeQuality1 (partition : List (List ℝ))
    (concept : List ℝ) (wc : ℕ) : ℝ :=
  vec_dot (vec_sum partition wc) concept wc

/-- The total `computeQuality` overload of `spkmeans.cpp` (lines 95–102):
the sum of the qualities of the `k` individual partitions. -/
noncomputable def computeQuality (partitions : List (List (List ℝ)))
    (concepts : List (List ℝ)) (k wc : ℕ) : ℝ :=
  ∑ i in Finset.range k,
    computeQuality1 (partitions.getD i []) (concepts.getD i []) wc

/-- `cosineSimilarity` of `spkmeans.cpp` (lines 107–110). -/
noncomputable def cosineSimilarity (dv cv : List ℝ) (wc : ℕ) : ℝ :=
  vec_dot dv cv wc / (vec_norm dv wc * vec_norm cv wc)

/-- `computeConcept` of `spkmeans.cpp` (lines 116–122): member sum, scaled by
`1.0 / wc`, then divided by its own norm (the norm being taken of the already
scaled vector, as in the source). -/
noncomputable def computeConcept (partition : List (List ℝ)) (wc : ℕ) :
    List ℝ :=
  let cv := vec_multiply (vec_sum partition wc) wc (1 / (wc : ℝ))
  vec_divide cv wc (vec_norm cv wc)

/-- The cluster state struct returned by `runSPKMeans`.  `cluster_data.h` is
not among the sources; the fields are modelled from the spec's §3 "Cluster
State" (k partitions, their sizes, k concept vectors, plus the fixed
parameters `k`, `dc`, `wc`) and from the uses `data.partitions`,
`data.p_sizes`, `data.concepts`, `data.k`, `data.wc` in `spkmeans.cpp`.
Partitions hold references to document vectors, modelled as indices into the
document matrix.  No field of the struct is ever assigned the loop's local
`iterations` counter anywhere in `spkmeans.cpp`. -/
structure ClusterData where
  k : ℕ
  dc : ℕ
  wc : ℕ
  partitions : List (List ℕ)
  p_sizes : List ℕ
  concepts : List (List ℝ)

/-- The initial-partitioning loop of `runSPKMeans` (lines 146–164), recursing
over the count `r` of partitions still to build; `i = k - r` is the current
partition index and `base` the 1-based index of its first document.  The
block arithmetic is carried out in `ℤ` as in the C source (`int` variables)
and document indices are the 0-based `base + j - 1`. -/
def initPartsGo (k : ℕ) (dc split : ℤ) : ℕ → ℤ → List (List ℕ)
  | 0, _ => []
  | r + 1, base =>
    let i : ℕ := k - (r + 1)
    let top : ℤ := if i = k - 1 then dc else base + split - 1
    let p_size : ℤ := top - base + 1
    ((List.range p_size.toNat).map (fun j : ℕ => (base + (j : ℤ) - 1).toNat)) ::
      initPartsGo k dc split r (base + split)

/-- The initial arbitrary partitioning: `split = floor(dc / k)` contiguous
documents per block, the final block absorbing the remainder. -/
def initPartitions (dc k : ℕ) : List (List ℕ) :=
  initPartsGo k (dc : ℤ) ((dc : ℤ) / (k : ℤ)) k 1

/-- The member vectors of a partition of document indices (the C partitions
store `float*` pointers into the document matrix). -/
def memberVecs (docs : List (List ℝ)) (p : List ℕ) : List (List ℝ) :=
  p.map (fun i => docs.getD i [])

/-- The inner best-concept loop of the assignment step (lines 197–205): a
running `(cIndx, cVal)` accumulator over the remaining concept vectors,
updated only on a strict `>` comparison. -/
noncomputable def bestAux (dv : List ℝ) (wc : ℕ) :
    List (List ℝ) → ℕ → ℕ × ℝ → ℕ × ℝ
  | [], _, acc => acc
  | cv :: rest, j, acc =>
    let new_cVal := cosineSimilarity dv cv wc
    bestAux dv wc rest (j + 1) (if new_cVal > acc.2 then (j, new_cVal) else acc)

/-- The partition index `cIndx` a document vector is assigned to: start from
concept 0, scan concepts `1 … k-1` with `bestAux` (lines 197–205). -/
noncomputable def assignOne (dv : List ℝ) (concepts : List (List ℝ))
    (wc : ℕ) : ℕ :=
  match concepts with
  | [] => 0
  | c0 :: rest => (bestAux dv wc rest 1 (0, cosineSimilarity dv c0 wc)).1

/-- `new_partitions[cIndx].push_back(doc_matrix[i])` (line 206), with the
document reference modelled as the index `i`. -/
def pushDoc (ps : List (List ℕ)) (j i : ℕ) : List (List ℕ) :=
  ps.set j (ps.getD j [] ++ [i])

/-- The assignment step (lines 193–207): `k` fresh empty partitions, then one
pass over the `dc` documents pushing each into the partition of its best
concept vector. -/
noncomputable def assignStep (docs : List (List ℝ))
    (concepts : List (List ℝ)) (wc : ℕ) : List (List ℕ) :=
  (List.range docs.length).foldl
    (fun ps i => pushDoc ps (assignOne (docs.getD i []) concepts wc) i)
    (List.replicate concepts.length [])

/-- The engine's loop state: the current partitions (`partitions` and
`p_sizes` of the C code, sizes being the list lengths), concept vectors,
`quality`, `dQ` and the `iterations` counter. -/
structure EngineState where
  partitions : List (List ℕ)
  concepts : List (List ℝ)
  quality : ℝ
  dQ : ℝ
  iterations : ℕ

/-- One iteration of the spherical k-means loop body (lines 188–235):
assignment, wholesale replacement of partitions, concept recomputation,
quality re-evaluation, `dQ = n_quality - quality`, counter increment. -/
noncomputable def stepState (docs : List (List ℝ)) (wc : ℕ)
    (s : EngineState) : EngineState :=
  let new_partitions := assignStep docs s.concepts wc
  let new_concepts :=
    new_partitions.map (fun p => computeConcept (memberVecs docs p) wc)
  let n_quality :=
    computeQuality (new_partitions.map (memberVecs docs)) new_concepts
      new_partitions.length wc
  { partitions := new_partitions
    concepts := new_concepts
    quality := n_quality
    dQ := n_quality - s.quality
    iterations := s.iterations + 1 }

/-- The engine state just before the loop (lines 136–187): normalized
documents, initial partitioning, initial concepts and quality,
`dQ = Q_THRESHOLD * 10` (line 186), `iterations = 0` (line 187). -/
noncomputable def initState (doc_matrix : List (List ℝ)) (k dc wc : ℕ) :
    EngineState :=
  let docs := txnScheme doc_matrix dc wc
  let partitions := initPartitions dc k
  let concepts := partitions.map (fun p => computeConcept (memberVecs docs p) wc)
  { partitions := partitions
    concepts := concepts
    quality := computeQuality (partitions.map (memberVecs docs)) concepts k wc
    dQ := Q_THRESHOLD * 10
    iterations := 0 }

/-- The `while(dQ > Q_THRESHOLD)` loop (lines 188–235), modelled with an
explicit fuel bound; `none` means the fuel ran out with the loop condition
still true. -/
noncomputable def loopGo (docs : List (List ℝ)) (wc : ℕ) :
    ℕ → EngineState → Option EngineState
  | 0, s => if s.dQ > Q_THRESHOLD then none else some s
  | fuel + 1, s =>
    if s.dQ > Q_THRESHOLD then loopGo docs wc fuel (stepState docs wc s)
    else some s

/-- `runSPKMeans` viewed as a trace ending in the full final loop state
(including the local `iterations` counter, for analysis). -/
noncomputable def runSPKMeansTrace (doc_matrix : List (List ℝ))
    (k dc wc fuel : ℕ) : Option EngineState :=
  loopGo (txnScheme doc_matrix dc wc) wc fuel (initState doc_matrix k dc wc)

/-- `runSPKMeans` (lines 128–259): returns the resulting partitions, their
sizes and the concept vectors in the `ClusterData` struct (line 258).  The
local `iterations` counter is printed (line 242) but never stored in `data`,
so it is not part of the returned value. -/
noncomputable def runSPKMeans (doc_matrix : List (List ℝ))
    (k dc wc fuel : ℕ) : Option ClusterData :=
  (runSPKMeansTrace doc_matrix k dc wc fuel).map (fun s =>
    { k := k
      dc := dc
      wc := wc
      partitions := s.partitions
      p_sizes := s.partitions.map List.length
      concepts := s.concepts })

/-! ### Basic facts about the vector primitives -/

theorem getD_range_map {α : Type} (f : ℕ → α) {n i : ℕ} (d : α) (h : i < n) :
    ((List.range n).map f).getD i d = f i := by
  rw [List.getD_eq_getElem?_getD, List.getElem?_map, List.getElem?_range h]
  rfl

theorem length_range_map {α : Type} (f : ℕ → α) (n : ℕ) :
    ((List.range n).map f).length = n := by
  rw [List.length_map, List.length_range]

theorem vec_multiply_getD {a : List ℝ} {n : ℕ} {s : ℝ} {i : ℕ} (h : i < n) :
    (vec_multiply a n s).getD i 0 = a.getD i 0 * s :=
  getD_range_map _ 0 h

theorem vec_divide_getD {a : List ℝ} {n : ℕ} {s : ℝ} {i : ℕ} (h : i < n) :
    (vec_divide a n s).getD i 0 = a.getD i 0 / s :=
  getD_range_map _ 0 h

theorem vec_sum_getD {vs : List (List ℝ)} {n : ℕ} {i : ℕ} (h : i < n) :
    (vec_sum vs n).getD i 0 = (vs.map (fun v => v.getD i 0)).sum :=
  getD_range_map _ 0 h

theorem vec_sum_length (vs : List (List ℝ)) (n : ℕ) :
    (vec_sum vs n).length = n :=
  length_range_map _ n

theorem vec_dot_comm (a b : List ℝ) (n : ℕ) : vec_dot a b n = vec_dot b a n := by
  unfold vec_dot
  exact Finset.sum_congr rfl fun i _ => mul_comm _ _

theorem vec_dot_self_nonneg (a : List ℝ) (n : ℕ) : 0 ≤ vec_dot a a n :=
  Finset.sum_nonneg fun i _ => mul_self_nonneg _

theorem vec_norm_nonneg (a : List ℝ) (n : ℕ) : 0 ≤ vec_norm a n :=
  Real.sqrt_nonneg _

theorem vec_dot_multiply_right (a b : List ℝ) (n : ℕ) (s : ℝ) :
    vec_dot a (vec_multiply b n s) n = s * vec_dot a b n := by
  unfold vec_dot
  rw [Finset.mul_sum]
  refine Finset.sum_congr rfl fun i hi => ?_
  rw [vec_multiply_getD (Finset.mem_range.1 hi)]
  ring

theorem vec_dot_divide_right (a b : List ℝ) (n : ℕ) (s : ℝ) :
    vec_dot a (vec_divide b n s) n = vec_dot a b n / s := by
  unfold vec_dot
  rw [Finset.sum_div]
  refine Finset.sum_congr rfl fun i hi => ?_
  rw [vec_divide_getD (Finset.mem_range.1 hi)]
  ring

theorem vec_dot_multiply_self (a : List ℝ) (n : ℕ) (s : ℝ) :
    vec_dot (vec_multiply a n s) (vec_multiply a n s) n =
      s * (s * vec_dot a a n) := by
  unfold vec_dot
  rw [Finset.mul_sum, Finset.mul_sum]
  refine Finset.sum_congr rfl fun i hi => ?_
  rw [vec_multiply_getD (Finset.mem_range.1 hi)]
  ring

theorem vec_dot_divide_self (a : List ℝ) (n : ℕ) (s : ℝ) :
    vec_dot (vec_divide a n s) (vec_divide a n s) n =
      vec_dot a a n / (s * s) := by
  unfold vec_dot
  rw [Finset.sum_div]
  refine Finset.sum_congr rfl fun i hi => ?_
  rw [vec_divide_getD (Finset.mem_range.1 hi)]
  rw [div_mul_div_comm]

theorem vec_norm_multiply (a : List ℝ) (n : ℕ) {s : ℝ} (hs : 0 ≤ s) :
    vec_norm (vec_multiply a n s) n = s * vec_norm a n := by
  unfold vec_norm
  rw [vec_dot_multiply_self, ← mul_assoc,
    Real.sqrt_mul (mul_self_nonneg s), Real.sqrt_mul_self hs]

theorem vec_norm_divide (a : List ℝ) (n : ℕ) {s : ℝ} (hs : 0 ≤ s) :
    vec_norm (vec_divide a n s) n = vec_norm a n / s := by
  unfold vec_norm
  rw [vec_dot_divide_self, Real.sqrt_div (vec_dot_self_nonneg a n),
    Real.sqrt_mul_self hs]

theorem vec_norm_eq_zero_iff (a : List ℝ) (n : ℕ) :
    vec_norm a n = 0 ↔ vec_dot a a n = 0 :=
  Real.sqrt_eq_zero (vec_dot_self_nonneg a n)

theorem vec_dot_self_pos_of_norm_ne_zero {a : List ℝ} {n : ℕ}
    (h : vec_norm a n ≠ 0) : 0 < vec_dot a a n :=
  lt_of_le_of_ne (vec_dot_self_nonneg a n)
    (fun e => h ((vec_norm_eq_zero_iff a n).2 e.symm))

theorem vec_norm_pos_of_ne_zero {a : List ℝ} {n : ℕ}
    (h : vec_norm a n ≠ 0) : 0 < vec_norm a n :=
  lt_of_le_of_ne (vec_norm_nonneg a n) (Ne.symm h)

/-- If a length-`n` vector is not the zero vector, its self dot product over
`n` entries is positive. -/
theorem vec_dot_self_pos {a : List ℝ} {n : ℕ} (hlen : a.length = n)
    (h : a ≠ List.replicate n 0) : 0 < vec_dot a a n := by
  have hx : ∃ x ∈ a, x ≠ 0 := by
    by_contra hc
    push_neg at hc
    exact h (List.eq_replicate_iff.2 ⟨hlen, hc⟩)
  obtain ⟨x, hmem, hx0⟩ := hx
  obtain ⟨i, hi, hget⟩ := List.getElem_of_mem hmem
  refine Finset.sum_pos' (fun j _ => mul_self_nonneg _) ⟨i, ?_, ?_⟩
  · exact Finset.mem_range.2 (hlen ▸ hi)
  · have : a.getD i 0 = x := by
      rw [List.getD_eq_getElem?_getD, List.getElem?_eq_getElem hi, hget]
      rfl
    rw [this]
    exact mul_self_pos.2 hx0

/-! ### Normalization, concepts and similarity -/

theorem vec_normalize_norm_one {a : List ℝ} {n : ℕ} (h : vec_norm a n ≠ 0) :
    vec_norm (vec_normalize a n) n = 1 := by
  unfold vec_normalize
  rw [vec_norm_divide a n (vec_norm_nonneg a n), div_self h]

/-- The concept vector is literally the spec's "member-sum vector scaled by
`1/wc` then normalized to unit Euclidean norm", in that order. -/
theorem computeConcept_eq_normalize (partition : List (List ℝ)) (wc : ℕ) :
    computeConcept partition wc =
      vec_normalize (vec_multiply (vec_sum partition wc) wc (1 / (wc : ℝ))) wc :=
  rfl

/-- If the scaled member sum is a nonzero vector, the concept norm is 1. -/
theorem computeConcept_norm_one {partition : List (List ℝ)} {wc : ℕ}
    (h : vec_norm (vec_multiply (vec_sum partition wc) wc (1 / (wc : ℝ))) wc ≠ 0) :
    vec_norm (computeConcept partition wc) wc = 1 :=
  vec_normalize_norm_one h

/-- For `wc > 0` and a nonzero member sum, the scaled member sum has nonzero
norm (the nondegeneracy condition of concept computation). -/
theorem scaled_sum_norm_ne_zero {partition : List (List ℝ)} {wc : ℕ}
    (hwc : 0 < wc) (hs : vec_sum partition wc ≠ List.replicate wc 0) :
    vec_norm (vec_multiply (vec_sum partition wc) wc (1 / (wc : ℝ))) wc ≠ 0 := by
  have hc : (0 : ℝ) < 1 / (wc : ℝ) := by positivity
  rw [vec_norm_multiply _ _ hc.le]
  refine mul_ne_zero (ne_of_gt hc) ?_
  exact Real.sqrt_ne_zero'.2 (vec_dot_self_pos (vec_sum_length partition wc) hs)

theorem vec_dot_computeConcept (d : List ℝ) (partition : List (List ℝ))
    {wc : ℕ} (hwc : 0 < wc) :
    vec_dot d (computeConcept partition wc) wc =
      vec_dot d (vec_sum partition wc) wc /
        Real.sqrt
          (vec_dot (vec_sum partition wc) (vec_sum partition wc) wc) := by
  have hc : (0 : ℝ) < 1 / (wc : ℝ) := by positivity
  show vec_dot d
      (vec_divide (vec_multiply (vec_sum partition wc) wc (1 / (wc : ℝ))) wc
        (vec_norm (vec_multiply (vec_sum partition wc) wc (1 / (wc : ℝ))) wc)) wc = _
  rw [vec_dot_divide_right, vec_dot_multiply_right, vec_norm_multiply _ _ hc.le,
    vec_norm]
  exact mul_div_mul_left _ _ (ne_of_gt hc)

/-- The quality of a partition measured against its own concept vector is the
Euclidean norm of its member sum. -/
theorem computeQuality1_concept (partition : List (List ℝ)) {wc : ℕ}
    (hwc : 0 < wc) :
    computeQuality1 partition (computeConcept partition wc) wc =
      Real.sqrt
        (vec_dot (vec_sum partition wc) (vec_sum partition wc) wc) := by
  unfold computeQuality1
  rw [vec_dot_computeConcept _ _ hwc]
  exact Real.div_sqrt

/-- On unit-norm vectors the cosine similarity is the plain dot product. -/
theorem cosineSimilarity_unit {dv cv : List ℝ} {wc : ℕ}
    (hd : vec_norm dv wc = 1) (hc : vec_norm cv wc = 1) :
    cosineSimilarity dv cv wc = vec_dot dv cv wc := by
  unfold cosineSimilarity
  rw [hd, hc, mul_one, div_one]

/-- Workhorse for concrete evaluations: for a unit-norm document and a
nondegenerate partition, the cosine similarity used by the assignment step is
the dot product with the member sum, divided by the member sum's norm. -/
theorem cosineSimilarity_concept (dv : List ℝ) (partition : List (List ℝ))
    {wc : ℕ} (hwc : 0 < wc) (hd : vec_norm dv wc = 1)
    (hs : vec_sum partition wc ≠ List.replicate wc 0) :
    cosineSimilarity dv (computeConcept partition wc) wc =
      vec_dot dv (vec_sum partition wc) wc /
        Real.sqrt
          (vec_dot (vec_sum partition wc) (vec_sum partition wc) wc) := by
  rw [cosineSimilarity_unit hd
    (computeConcept_norm_one (scaled_sum_norm_ne_zero hwc hs)),
    vec_dot_computeConcept _ _ hwc]

/-! ### Rational comparison helpers for quotients by square roots -/

theorem div_sqrt_lt_div_sqrt {A B RA RB : ℝ} (hA : 0 ≤ A) (hB : 0 ≤ B)
    (hRA : 0 < RA) (hRB : 0 < RB) :
    A / Real.sqrt RA < B / Real.sqrt RB ↔ A * A * RB < B * B * RA := by
  rw [div_lt_div_iff₀ (Real.sqrt_pos.2 hRA) (Real.sqrt_pos.2 hRB)]
  rw [mul_self_lt_mul_self_iff (by positivity) (by positivity)]
  rw [mul_mul_mul_comm A _ A, Real.mul_self_sqrt hRB.le,
    mul_mul_mul_comm B _ B, Real.mul_self_sqrt hRA.le]

theorem div_sqrt_le_div_sqrt {A B RA RB : ℝ} (hA : 0 ≤ A) (hB : 0 ≤ B)
    (hRA : 0 < RA) (hRB : 0 < RB) :
    A / Real.sqrt RA ≤ B / Real.sqrt RB ↔ A * A * RB ≤ B * B * RA := by
  rw [div_le_div_iff₀ (Real.sqrt_pos.2 hRA) (Real.sqrt_pos.2 hRB)]
  rw [mul_self_le_mul_self_iff (by positivity) (by positivity)]
  rw [mul_mul_mul_comm A _ A, Real.mul_self_sqrt hRB.le,
    mul_mul_mul_comm B _ B, Real.mul_self_sqrt hRA.le]

theorem div_sqrt_le_const {A B R : ℝ} (hA : 0 ≤ A) (hB : 0 ≤ B)
    (hR : 0 < R) : A / Real.sqrt R ≤ B ↔ A * A ≤ B * B * R := by
  rw [div_le_iff₀ (Real.sqrt_pos.2 hR)]
  rw [mul_self_le_mul_self_iff hA (by positivity)]
  rw [mul_mul_mul_comm B _ B, Real.mul_self_sqrt hR.le]

theorem const_le_div_sqrt {A B R : ℝ} (hA : 0 ≤ A) (hB : 0 ≤ B)
    (hR : 0 < R) : B ≤ A / Real.sqrt R ↔ B * B * R ≤ A * A := by
  rw [le_div_iff₀ (Real.sqrt_pos.2 hR)]
  rw [mul_self_le_mul_self_iff (by positivity) hA]
  rw [mul_mul_mul_comm B _ B, Real.mul_self_sqrt hR.le]

theorem const_lt_div_sqrt {A B R : ℝ} (hA : 0 ≤ A) (hB : 0 ≤ B)
    (hR : 0 < R) : B < A / Real.sqrt R ↔ B * B * R < A * A := by
  rw [lt_div_iff₀ (Real.sqrt_pos.2 hR)]
  rw [mul_self_lt_mul_self_iff (by positivity) hA]
  rw [mul_mul_mul_comm B _ B, Real.mul_self_sqrt hR.le]

theorem div_sqrt_lt_const {A B R : ℝ} (hA : 0 ≤ A) (hB : 0 ≤ B)
    (hR : 0 < R) : A / Real.sqrt R < B ↔ A * A < B * B * R := by
  rw [div_lt_iff₀ (Real.sqrt_pos.2 hR)]
  rw [mul_self_lt_mul_self_iff hA (by positivity)]
  rw [mul_mul_mul_comm B _ B, Real.mul_self_sqrt hR.le]

/-! ### The assignment step: argmax characterization and bucket structure -/

theorem bestAux_spec (dv : List ℝ) (wc : ℕ) (cs : List (List ℝ)) :
    ∀ (j : ℕ) (acc : ℕ × ℝ),
      (bestAux dv wc cs j acc = acc ∧
        ∀ t < cs.length, cosineSimilarity dv (cs.getD t []) wc ≤ acc.2) ∨
      (∃ t < cs.length,
        (bestAux dv wc cs j acc).1 = j + t ∧
        (bestAux dv wc cs j acc).2 = cosineSimilarity dv (cs.getD t []) wc ∧
        acc.2 < (bestAux dv wc cs j acc).2 ∧
        (∀ u < t,
          cosineSimilarity dv (cs.getD u []) wc < (bestAux dv wc cs j acc).2) ∧
        (∀ u < cs.length,
          cosineSimilarity dv (cs.getD u []) wc ≤ (bestAux dv wc cs j acc).2)) := by
  induction cs with
  | nil =>
    intro j acc
    exact Or.inl ⟨rfl, fun t ht => absurd ht (by simp)⟩
  | cons c cs ih =>
    intro j acc
    have hstep : bestAux dv wc (c :: cs) j acc =
        bestAux dv wc cs (j + 1)
          (if cosineSimilarity dv c wc > acc.2 then (j, cosineSimilarity dv c wc)
           else acc) := rfl
    by_cases hv : cosineSimilarity dv c wc > acc.2
    · rw [hstep, if_pos hv]
      rcases ih (j + 1) (j, cosineSimilarity dv c wc) with
        ⟨heq, hb⟩ | ⟨t, ht, h1, h2, h3, h4, h5⟩
      · refine Or.inr ⟨0, by simp, ?_, ?_, ?_, ?_, ?_⟩
        · rw [heq]; simp
        · rw [heq, List.getD_cons_zero]
        · rw [heq]; exact hv
        · intro u hu; omega
        · intro u hu
          match u with
          | 0 =>
            rw [heq, List.getD_cons_zero]
          | u + 1 =>
            rw [heq, List.getD_cons_succ]
            exact hb u (by simpa using hu)
      · refine Or.inr ⟨t + 1, by simpa using ht, by rw [h1]; omega, ?_, ?_, ?_, ?_⟩
        · rw [List.getD_cons_succ]; exact h2
        · exact lt_trans hv h3
        · intro u hu
          match u with
          | 0 => rw [List.getD_cons_zero]; exact h3
          | u + 1 =>
            rw [List.getD_cons_succ]
            exact h4 u (by omega)
        · intro u hu
          match u with
          | 0 => rw [List.getD_cons_zero]; exact le_of_lt h3
          | u + 1 =>
            rw [List.getD_cons_succ]
            exact h5 u (by simpa using hu)
    · rw [hstep, if_neg hv]
      push_neg at hv
      rcases ih (j + 1) acc with ⟨heq, hb⟩ | ⟨t, ht, h1, h2, h3, h4, h5⟩
      · refine Or.inl ⟨heq, ?_⟩
        intro u hu
        match u with
        | 0 => rw [List.getD_cons_zero]; exact hv
        | u + 1 =>
          rw [List.getD_cons_succ]
          exact hb u (by simpa using hu)
      · refine Or.inr ⟨t + 1, by simpa using ht, by rw [h1]; omega, ?_, h3, ?_, ?_⟩
        · rw [List.getD_cons_succ]; exact h2
        · intro u hu
          match u with
          | 0 => rw [List.getD_cons_zero]; exact lt_of_le_of_lt hv h3
          | u + 1 =>
            rw [List.getD_cons_succ]
            exact h4 u (by omega)
        · intro u hu
          match u with
          | 0 => rw [List.getD_cons_zero]; exact le_trans hv (le_of_lt h3)
          | u + 1 =>
            rw [List.getD_cons_succ]
            exact h5 u (by simpa using hu)

/-- The assignment index of a document: it is a valid partition index, it
attains the maximum cosine similarity over all `k` concept vectors, and every
strictly earlier index has strictly smaller similarity (first-seen maximum
wins under the strict `>` update). -/
theorem assignOne_spec (dv : List ℝ) (concepts : List (List ℝ)) (wc : ℕ)
    (hk : concepts ≠ []) :
    assignOne dv concepts wc < concepts.length ∧
    (∀ j < concepts.length,
      cosineSimilarity dv (concepts.getD j []) wc ≤
        cosineSimilarity dv (concepts.getD (assignOne dv concepts wc) []) wc) ∧
    (∀ j < assignOne dv concepts wc,
      cosineSimilarity dv (concepts.getD j []) wc <
        cosineSimilarity dv (concepts.getD (assignOne dv concepts wc) []) wc) := by
  match concepts with
  | [] => exact absurd rfl hk
  | c0 :: rest =>
    have hdef : assignOne dv (c0 :: rest) wc =
        (bestAux dv wc rest 1 (0, cosineSimilarity dv c0 wc)).1 := rfl
    rcases bestAux_spec dv wc rest 1 (0, cosineSimilarity dv c0 wc) with
      ⟨heq, hb⟩ | ⟨t, ht, h1, h2, h3, h4, h5⟩
    · rw [hdef, heq]
      refine ⟨by simp, ?_, ?_⟩
      · intro j hj
        match j with
        | 0 => simp
        | j + 1 =>
          rw [List.getD_cons_succ, List.getD_cons_zero]
          exact hb j (by simpa using hj)
      · intro j hj; omega
    · rw [hdef, h1]
      have hgd : (c0 :: rest).getD (1 + t) [] = rest.getD t [] := by
        rw [add_comm, List.getD_cons_succ]
      refine ⟨by rw [List.length_cons]; omega, ?_, ?_⟩
      · intro j hj
        rw [hgd, ← h2]
        match j with
        | 0 =>
          rw [List.getD_cons_zero]
          exact le_of_lt h3
        | j + 1 =>
          rw [List.getD_cons_succ]
          exact h5 j (by simpa using hj)
      · intro j hj
        rw [hgd, ← h2]
        match j with
        | 0 =>
          rw [List.getD_cons_zero]
          exact h3
        | j + 1 =>
          rw [List.getD_cons_succ]
          exact h4 j (by omega)

theorem assignOne_lt_length (dv : List ℝ) (concepts : List (List ℝ))
    (wc : ℕ) (hk : concepts ≠ []) :
    assignOne dv concepts wc < concepts.length :=
  (assignOne_spec dv concepts wc hk).1

theorem pushDoc_length (ps : List (List ℕ)) (j i : ℕ) :
    (pushDoc ps j i).length = ps.length :=
  List.length_set ..

theorem getD_set_self {ps : List (List ℕ)} {j : ℕ} (x : List ℕ)
    (h : j < ps.length) : (ps.set j x).getD j [] = x := by
  rw [List.getD_eq_getElem?_getD, List.getElem?_set_eq_of_lt _ h]
  rfl

theorem getD_set_ne {ps : List (List ℕ)} {j j' : ℕ} (x : List ℕ)
    (h : j ≠ j') : (ps.set j x).getD j' [] = ps.getD j' [] := by
  rw [List.getD_eq_getElem?_getD, List.getElem?_set_ne h,
    ← List.getD_eq_getElem?_getD]

theorem foldl_pushDoc_length (f : ℕ → ℕ) (l : List ℕ) :
    ∀ parts : List (List ℕ),
      (l.foldl (fun ps i => pushDoc ps (f i) i) parts).length = parts.length := by
  induction l with
  | nil => intro parts; rfl
  | cons i l ih =>
    intro parts
    rw [List.foldl_cons, ih, pushDoc_length]

theorem foldl_pushDoc_getD (f : ℕ → ℕ) (l : List ℕ) :
    ∀ parts : List (List ℕ), (∀ i ∈ l, f i < parts.length) →
      ∀ j < parts.length,
        (l.foldl (fun ps i => pushDoc ps (f i) i) parts).getD j [] =
          parts.getD j [] ++ l.filter (fun i => f i == j) := by
  induction l with
  | nil =>
    intro parts _ j _
    simp
  | cons i l ih =>
    intro parts hf j hj
    rw [List.foldl_cons]
    have hlen : (pushDoc parts (f i) i).length = parts.length :=
      pushDoc_length ..
    have hrec := ih (pushDoc parts (f i) i)
      (fun x hx => by rw [hlen]; exact hf x (List.mem_cons_of_mem _ hx))
      j (by rw [hlen]; exact hj)
    rw [hrec, List.filter_cons]
    by_cases hij : f i = j
    · rw [if_pos (by simpa using hij)]
      unfold pushDoc
      rw [hij, getD_set_self _ hj, List.append_assoc, List.singleton_append]
    · rw [if_neg (by simpa using hij)]
      unfold pushDoc
      rw [getD_set_ne _ hij]

theorem getD_replicate_lt {α : Type} (x : α) {n j : ℕ} (d : α) (h : j < n) :
    (List.replicate n x).getD j d = x := by
  rw [List.getD_eq_getElem?_getD, List.getElem?_replicate, if_pos h]
  rfl

theorem assignStep_length (docs : List (List ℝ)) (concepts : List (List ℝ))
    (wc : ℕ) : (assignStep docs concepts wc).length = concepts.length := by
  unfold assignStep
  rw [foldl_pushDoc_length, List.length_replicate]

/-- Each bucket of the assignment step is the (order-preserving) list of
documents whose best concept index is that bucket's index. -/
theorem assignStep_getD (docs : List (List ℝ)) (concepts : List (List ℝ))
    (wc : ℕ) (hk : concepts ≠ []) {j : ℕ} (hj : j < concepts.length) :
    (assignStep docs concepts wc).getD j [] =
      (List.range docs.length).filter
        (fun i => assignOne (docs.getD i []) concepts wc == j) := by
  unfold assignStep
  rw [foldl_pushDoc_getD _ _ _
    (fun i _ => by
      rw [List.length_replicate]
      exact assignOne_lt_length _ _ _ hk)
    j (by rw [List.length_replicate]; exact hj)]
  rw [getD_replicate_lt _ _ hj, List.nil_append]

theorem assignStep_eq_map_filter (docs : List (List ℝ))
    (concepts : List (List ℝ)) (wc : ℕ) (hk : concepts ≠ []) :
    assignStep docs concepts wc =
      (List.range concepts.length).map
        (fun j => (List.range docs.length).filter
          (fun i => assignOne (docs.getD i []) concepts wc == j)) := by
  apply List.ext_getElem
  · rw [assignStep_length, length_range_map]
  · intro j h1 h2
    have hj : j < concepts.length := by
      rw [assignStep_length] at h1
      exact h1
    have e1 : (assignStep docs concepts wc)[j] =
        (assignStep docs concepts wc).getD j [] := by
      rw [List.getD_eq_getElem?_getD, List.getElem?_eq_getElem h1]
      rfl
    have e2 : ((List.range concepts.length).map
        (fun j => (List.range docs.length).filter
          (fun i => assignOne (docs.getD i []) concepts wc == j)))[j] =
        ((List.range concepts.length).map
        (fun j => (List.range docs.length).filter
          (fun i => assignOne (docs.getD i []) concepts wc == j))).getD j [] := by
      rw [List.getD_eq_getElem?_getD, List.getElem?_eq_getElem h2]
      rfl
    rw [e1, e2, assignStep_getD docs concepts wc hk hj,
      getD_range_map _ _ hj]

/-! ### Fiberwise sums and coverage of the assignment buckets -/

theorem sum_map_ite_eq {M : Type} [AddCommMonoid M] (l : List ℕ)
    (hl : l.Nodup) (a : ℕ) (ha : a ∈ l) (c : M) :
    (l.map (fun j => if a = j then c else 0)).sum = c := by
  induction l with
  | nil => exact absurd ha (List.not_mem_nil a)
  | cons x l ih =>
    rw [List.map_cons, List.sum_cons]
    rcases List.mem_cons.1 ha with hax | hal
    · rw [if_pos hax]
      have hz : ((l.map (fun j => if a = j then c else 0))).sum = 0 := by
        refine List.sum_eq_zero fun y hy => ?_
        obtain ⟨j, hj, hjy⟩ := List.mem_map.1 hy
        rw [← hjy, if_neg]
        intro haj
        exact (List.nodup_cons.1 hl).1 (hax ▸ haj ▸ hj)
      rw [hz, add_zero]
    · have hax : a ≠ x := by
        intro h
        exact (List.nodup_cons.1 hl).1 (h ▸ hal)
      rw [if_neg hax, ih (List.nodup_cons.1 hl).2 hal, zero_add]

/-- Summing a function bucket-by-bucket over the fibers of `f` recovers the
sum over the whole index list. -/
theorem fiber_sum {M : Type} [AddCommMonoid M] (l : List ℕ) (f : ℕ → ℕ)
    (g : ℕ → M) (k : ℕ) (h : ∀ i ∈ l, f i < k) :
    ((List.range k).map
      (fun j => ((l.filter (fun i => f i == j)).map g).sum)).sum =
      (l.map g).sum := by
  induction l with
  | nil =>
    rw [List.map_nil, List.sum_nil]
    refine List.sum_eq_zero fun y hy => ?_
    obtain ⟨j, _, hjy⟩ := List.mem_map.1 hy
    rw [← hjy, List.filter_nil, List.map_nil, List.sum_nil]
  | cons i l ih =>
    have hpt : ∀ j : ℕ,
        ((((i :: l).filter (fun x => f x == j)).map g)).sum =
          (if f i = j then g i else 0) +
            ((l.filter (fun x => f x == j)).map g).sum := by
      intro j
      rw [List.filter_cons]
      by_cases hij : f i = j
      · rw [if_pos (by simpa using hij), if_pos hij, List.map_cons,
          List.sum_cons]
      · rw [if_neg (by simpa using hij), if_neg hij, zero_add]
    calc ((List.range k).map
          (fun j => (((i :: l).filter (fun x => f x == j)).map g).sum)).sum
        = ((List.range k).map
            (fun j => (if f i = j then g i else 0) +
              ((l.filter (fun x => f x == j)).map g).sum)).sum := by
          refine congrArg _ (List.map_congr_left fun j _ => hpt j)
      _ = ((List.range k).map (fun j => if f i = j then g i else 0)).sum +
            ((List.range k).map
              (fun j => ((l.filter (fun x => f x == j)).map g).sum)).sum := by
          rw [← List.sum_map_add]
      _ = g i + (l.map g).sum := by
          rw [ih (fun x hx => h x (List.mem_cons_of_mem _ hx)),
            sum_map_ite_eq _ (List.nodup_range k) _
              (List.mem_range.2 (h i (List.mem_cons_self i l))) (g i)]
      _ = ((i :: l).map g).sum := by
          rw [List.map_cons, List.sum_cons]

/-- The buckets produced by one assignment step cover the document index
range exactly: their concatenation is a permutation of `range dc`. -/
theorem assignStep_flatten_perm (docs : List (List ℝ))
    (concepts : List (List ℝ)) (wc : ℕ) (hk : concepts ≠ []) :
    (assignStep docs concepts wc).flatten.Perm (List.range docs.length) := by
  rw [List.perm_iff_count]
  intro a
  rw [List.count_flatten, assignStep_eq_map_filter docs concepts wc hk,
    List.map_map]
  by_cases ha : a < docs.length
  · have hcr : (List.range docs.length).count a = 1 :=
      List.count_eq_one_of_mem (List.nodup_range _) (List.mem_range.2 ha)
    rw [hcr]
    have hpt : ∀ j : ℕ,
        ((List.count a ∘ fun j => (List.range docs.length).filter
          (fun i => assignOne (docs.getD i []) concepts wc == j)) j) =
        (if assignOne (docs.getD a []) concepts wc = j then 1 else 0) := by
      intro j
      show List.count a ((List.range docs.length).filter
        (fun i => assignOne (docs.getD i []) concepts wc == j)) = _
      by_cases haj : assignOne (docs.getD a []) concepts wc = j
      · rw [if_pos haj, List.count_filter (by simpa using haj), hcr]
      · rw [if_neg haj]
        refine List.count_eq_zero_of_not_mem fun hmem => ?_
        have := (List.mem_filter.1 hmem).2
        exact haj (by simpa using this)
    rw [List.map_congr_left fun j _ => hpt j]
    exact sum_map_ite_eq _ (List.nodup_range _) _
      (List.mem_range.2 (assignOne_lt_length _ _ _ hk)) 1
  · have hcr : (List.range docs.length).count a = 0 :=
      List.count_eq_zero_of_not_mem fun hmem =>
        ha (List.mem_range.1 hmem)
    rw [hcr]
    refine List.sum_eq_zero fun y hy => ?_
    obtain ⟨j, _, hjy⟩ := List.mem_map.1 hy
    rw [← hjy]
    show List.count a ((List.range docs.length).filter _) = 0
    refine List.count_eq_zero_of_not_mem fun hmem => ?_
    exact ha (List.mem_range.1 (List.mem_filter.1 hmem).1)

/-! ### The initial partitioning: closed form -/

theorem initPartsGo_zero (k : ℕ) (dc s : ℤ) (base : ℤ) :
    initPartsGo k dc s 0 base = [] := rfl

/-- Closed form of the initial-partitioning loop: with `r` blocks left to
build (`1 ≤ r ≤ k`) at the 1-based base `1 + (k-r)*s`, it produces the
contiguous blocks `k-r, …, k-1`, each of size `s` except the final one,
which runs out to document `dc - 1`. -/
theorem initPartsGo_eq (k dc s : ℕ) (hs1 : 1 ≤ s) (hks : k * s ≤ dc) :
    ∀ r : ℕ, 1 ≤ r → r ≤ k →
      initPartsGo k (dc : ℤ) (s : ℤ) r ((1 + (k - r) * s : ℕ) : ℤ) =
        (List.range r).map (fun t =>
          if k - r + t = k - 1 then
            List.range' ((k - 1) * s) (dc - (k - 1) * s)
          else List.range' ((k - r + t) * s) s) := by
  intro r
  induction r with
  | zero => intro h; omega
  | succ r ih =>
    intro _ hrk
    have hsub1 : (k - 1) * s = k * s - s := by
      rw [Nat.sub_one_mul]
    have hlast_le : (k - 1) * s ≤ dc := by
      rw [hsub1]; omega
    by_cases hr0 : r = 0
    · subst hr0
      have hi : k - (0 + 1) = k - 1 := rfl
      rw [initPartsGo]
      rw [if_pos hi, initPartsGo_zero]
      have hn : ((dc : ℤ) - ((1 + (k - (0+1)) * s : ℕ) : ℤ) + 1).toNat =
          dc - (k - 1) * s := by
        rw [hi]
        generalize (k - 1) * s = m at hlast_le ⊢
        omega
      rw [hn]
      have hmap : (List.range (dc - (k - 1) * s)).map
          (fun j : ℕ => (((1 + (k - (0+1)) * s : ℕ) : ℤ) + (j : ℤ) - 1).toNat) =
          List.range' ((k - 1) * s) (dc - (k - 1) * s) := by
        rw [List.range'_eq_map_range]
        refine List.map_congr_left fun j _ => ?_
        rw [hi]
        generalize (k - 1) * s = m
        omega
      rw [hmap]
      have hr1 : List.range (0 + 1) = [0] := rfl
      rw [hr1, List.map_cons, List.map_nil,
        if_pos (by omega : k - (0 + 1) + 0 = k - 1)]
    · -- inner block (i < k - 1)
      have hk2 : 2 ≤ k := by omega
      have hine : ¬ (k - (r + 1) = k - 1) := by omega
      rw [initPartsGo]
      rw [if_neg hine]
      have hn : ((((1 + (k - (r+1)) * s : ℕ) : ℤ) + s - 1) -
          ((1 + (k - (r+1)) * s : ℕ) : ℤ) + 1).toNat = s := by
        generalize (k - (r+1)) * s = m
        omega
      rw [hn]
      have hmap : (List.range s).map
          (fun j : ℕ => (((1 + (k - (r+1)) * s : ℕ) : ℤ) + (j : ℤ) - 1).toNat) =
          List.range' ((k - (r + 1)) * s) s := by
        rw [List.range'_eq_map_range]
        refine List.map_congr_left fun j _ => ?_
        generalize (k - (r+1)) * s = m
        omega
      rw [hmap]
      have hmul : (k - r) * s = (k - (r + 1)) * s + s := by
        rw [show k - r = (k - (r + 1)) + 1 from by omega, add_mul, one_mul]
      have hbase : (((1 + (k - (r+1)) * s : ℕ) : ℤ) + s) =
          ((1 + (k - r) * s : ℕ) : ℤ) := by
        rw [hmul]
        push_cast
        ring
      rw [hbase, ih (by omega) (by omega)]
      rw [List.range_succ_eq_map, List.map_cons, List.map_map]
      congr 1
      · rw [add_zero, if_neg hine]
      · refine List.map_congr_left fun t _ => ?_
        simp only [Function.comp_apply, Nat.succ_eq_add_one]
        have hidx : k - (r + 1) + (t + 1) = k - r + t := by omega
        rw [hidx]

/-- `initPartitions` in closed form: `k` blocks, the first `k-1` of size
`split = dc / k`, the final block running out to `dc - 1`. -/
theorem initPartitions_closed (dc k : ℕ) (hk1 : 1 ≤ k) (hkd : k ≤ dc) :
    initPartitions dc k =
      (List.range k).map (fun i =>
        if i = k - 1 then
          List.range' ((k - 1) * (dc / k)) (dc - (k - 1) * (dc / k))
        else List.range' (i * (dc / k)) (dc / k)) := by
  unfold initPartitions
  have hsplit : (dc : ℤ) / (k : ℤ) = ((dc / k : ℕ) : ℤ) :=
    (Int.ofNat_div dc k).symm
  have hs1 : 1 ≤ dc / k := (Nat.one_le_div_iff (by omega)).2 hkd
  have hks : k * (dc / k) ≤ dc := Nat.mul_div_le dc k
  have hbase1 : ((1 + (k - k) * (dc / k) : ℕ) : ℤ) = 1 := by
    rw [Nat.sub_self, zero_mul, add_zero]
    rfl
  rw [hsplit, ← hbase1, initPartsGo_eq k dc (dc / k) hs1 hks k (by omega) le_rfl]
  refine List.map_congr_left fun t ht => ?_
  rw [Nat.sub_self, zero_add]

theorem initPartsGo_length (k : ℕ) (dc s : ℤ) :
    ∀ (r : ℕ) (base : ℤ), (initPartsGo k dc s r base).length = r := by
  intro r
  induction r with
  | zero => intro base; rfl
  | succ r ih =>
    intro base
    rw [initPartsGo, List.length_cons, ih]

theorem initPartitions_length (dc k : ℕ) : (initPartitions dc k).length = k :=
  initPartsGo_length ..

theorem flatten_uniform_blocks (s : ℕ) :
    ∀ m : ℕ, ((List.range m).map (fun i => List.range' (i * s) s)).flatten =
      List.range' 0 (m * s) := by
  intro m
  induction m with
  | zero => rw [Nat.zero_mul]; rfl
  | succ m ih =>
    rw [List.range_succ, List.map_append, List.flatten_append, ih,
      List.map_cons, List.map_nil, List.flatten_cons, List.flatten_nil,
      List.append_nil]
    have h := List.range'_append 0 (m * s) s 1
    rw [zero_add, one_mul] at h
    rw [h, add_mul, one_mul, add_comm (m * s) s]

/-- The initial partitioning covers `0, …, dc - 1` in order. -/
theorem initPartitions_flatten (dc k : ℕ) (hk1 : 1 ≤ k) (hkd : k ≤ dc) :
    (initPartitions dc k).flatten = List.range dc := by
  obtain ⟨k', rfl⟩ : ∃ k', k = k' + 1 := ⟨k - 1, by omega⟩
  rw [initPartitions_closed dc (k' + 1) hk1 hkd]
  have hk1' : k' + 1 - 1 = k' := rfl
  rw [hk1', List.range_succ, List.map_append, List.flatten_append]
  have hmc : (List.range k').map (fun i =>
      if i = k' then
        List.range' (k' * (dc / (k' + 1))) (dc - k' * (dc / (k' + 1)))
      else List.range' (i * (dc / (k' + 1))) (dc / (k' + 1))) =
      (List.range k').map
        (fun i => List.range' (i * (dc / (k' + 1))) (dc / (k' + 1))) := by
    refine List.map_congr_left fun i hi => ?_
    rw [if_neg (Nat.ne_of_lt (List.mem_range.1 hi))]
  rw [hmc, flatten_uniform_blocks, List.map_cons, List.map_nil,
    List.flatten_cons, List.flatten_nil, List.append_nil, if_pos rfl]
  have hle : (k' + 1) * (dc / (k' + 1)) ≤ dc := Nat.mul_div_le dc (k' + 1)
  have hle2 : k' * (dc / (k' + 1)) ≤ (k' + 1) * (dc / (k' + 1)) :=
    Nat.mul_le_mul_right _ (by omega)
  have h := List.range'_append 0 (k' * (dc / (k' + 1)))
    (dc - k' * (dc / (k' + 1))) 1
  rw [zero_add, one_mul] at h
  rw [h, List.range_eq_range']
  congr 1
  generalize k' * (dc / (k' + 1)) = K at hle2 hle ⊢
  generalize (k' + 1) * (dc / (k' + 1)) = K2 at hle2 hle ⊢
  omega

/-- C4: for every `dc` and `k` with `1 ≤ k ≤ dc`, the initial partitioning
(a deterministic function of `dc` and `k` alone) splits the documents into
`k` contiguous blocks: each of the first `k-1` blocks is a run of exactly
`floor(dc/k)` consecutive document indices starting at `i * floor(dc/k)`,
the `k`-th block is the run of the remaining `floor(dc/k) + dc % k`
documents, and every one of the `dc` documents appears in exactly one
initial partition (the concatenation of the blocks is `0, …, dc-1`). -/
theorem claim_C4_initial_partitioning (dc k : ℕ) (hk1 : 1 ≤ k)
    (hkd : k ≤ dc) :
    (initPartitions dc k).length = k ∧
    (∀ i, i < k - 1 →
      (initPartitions dc k).getD i [] =
        List.range' (i * (dc / k)) (dc / k)) ∧
    (initPartitions dc k).getD (k - 1) [] =
      List.range' ((k - 1) * (dc / k)) (dc / k + dc % k) ∧
    (initPartitions dc k).flatten = List.range dc ∧
    (∀ i, i < dc → (initPartitions dc k).flatten.count i = 1) := by
  have hform := initPartitions_closed dc k hk1 hkd
  have hlastlen : dc - (k - 1) * (dc / k) = dc / k + dc % k := by
    have hq : k * (dc / k) + dc % k = dc := Nat.div_add_mod dc k
    have hsub : (k - 1) * (dc / k) = k * (dc / k) - dc / k :=
      Nat.sub_one_mul ..
    have hle : dc / k ≤ k * (dc / k) := Nat.le_mul_of_pos_left _ (by omega)
    rw [hsub]
    generalize dc / k = q at hq hle ⊢
    generalize k * q = K at hq hle ⊢
    omega
  refine ⟨?_, ?_, ?_, ?_, ?_⟩
  · exact initPartitions_length dc k
  · intro i hi
    rw [hform, getD_range_map _ _ (by omega : i < k), if_neg (by omega)]
  · rw [hform, getD_range_map _ _ (by omega : k - 1 < k), if_pos rfl,
      hlastlen]
  · exact initPartitions_flatten dc k hk1 hkd
  · intro i hi
    rw [initPartitions_flatten dc k hk1 hkd]
    exact List.count_eq_one_of_mem (List.nodup_range dc) (List.mem_range.2 hi)

/-- Witness for C4 at `dc = 10`, `k = 3`. -/
theorem claim_C4_witness :
    (1 ≤ 3 ∧ 3 ≤ 10) ∧
    ((initPartitions 10 3).length = 3 ∧
    (∀ i, i < 3 - 1 →
      (initPartitions 10 3).getD i [] =
        List.range' (i * (10 / 3)) (10 / 3)) ∧
    (initPartitions 10 3).getD (3 - 1) [] =
      List.range' ((3 - 1) * (10 / 3)) (10 / 3 + 10 % 3) ∧
    (initPartitions 10 3).flatten = List.range 10 ∧
    (∀ i, i < 10 → (initPartitions 10 3).flatten.count i = 1)) :=
  ⟨⟨by norm_num, by norm_num⟩,
    claim_C4_initial_partitioning 10 3 (by norm_num) (by norm_num)⟩

/-! ### The iteration loop: termination structure -/

theorem stepState_iterations (docs : List (List ℝ)) (wc : ℕ)
    (s : EngineState) : (stepState docs wc s).iterations = s.iterations + 1 :=
  rfl

theorem iterate_stepState_iterations (docs : List (List ℝ)) (wc : ℕ)
    (s : EngineState) :
    ∀ m : ℕ, ((stepState docs wc)^[m] s).iterations = s.iterations + m := by
  intro m
  induction m with
  | zero => rfl
  | succ m ih =>
    rw [Function.iterate_succ_apply', stepState_iterations, ih, Nat.add_assoc]

/-- The fuelled loop, when it returns a state, returns exactly the `m`-fold
iterate of the loop body for the first `m` at which `dQ ≤ Q_THRESHOLD`,
having re-entered the body exactly at the iterates with `dQ > Q_THRESHOLD`. -/
theorem loopGo_spec (docs : List (List ℝ)) (wc : ℕ) :
    ∀ (fuel : ℕ) (s0 sf : EngineState), loopGo docs wc fuel s0 = some sf →
      ∃ m ≤ fuel, sf = (stepState docs wc)^[m] s0 ∧
        ((stepState docs wc)^[m] s0).dQ ≤ Q_THRESHOLD ∧
        ∀ m' < m, ((stepState docs wc)^[m'] s0).dQ > Q_THRESHOLD := by
  intro fuel
  induction fuel with
  | zero =>
    intro s0 sf h
    rw [loopGo] at h
    by_cases hd : s0.dQ > Q_THRESHOLD
    · rw [if_pos hd] at h
      exact absurd h (by simp)
    · rw [if_neg hd] at h
      refine ⟨0, le_refl 0, (Option.some_inj.1 h).symm, ?_, ?_⟩
      · rw [Function.iterate_zero_apply]
        exact le_of_not_lt hd
      · intro m' hm'
        omega
  | succ fuel ih =>
    intro s0 sf h
    rw [loopGo] at h
    by_cases hd : s0.dQ > Q_THRESHOLD
    · rw [if_pos hd] at h
      obtain ⟨m, hm, heq, hstop, hprev⟩ := ih (stepState docs wc s0) sf h
      refine ⟨m + 1, by omega, ?_, ?_, ?_⟩
      · rw [Function.iterate_succ_apply]
        exact heq
      · rw [Function.iterate_succ_apply]
        exact hstop
      · intro m' hm'
        match m' with
        | 0 =>
          rw [Function.iterate_zero_apply]
          exact hd
        | m'' + 1 =>
          rw [Function.iterate_succ_apply]
          exact hprev m'' (by omega)
    · rw [if_neg hd] at h
      refine ⟨0, by omega, (Option.some_inj.1 h).symm, ?_, ?_⟩
      · rw [Function.iterate_zero_apply]
        exact le_of_not_lt hd
      · intro m' hm'
        omega

theorem initState_dQ (doc_matrix : List (List ℝ)) (k dc wc : ℕ) :
    (initState doc_matrix k dc wc).dQ = Q_THRESHOLD * 10 := rfl

theorem initState_iterations (doc_matrix : List (List ℝ)) (k dc wc : ℕ) :
    (initState doc_matrix k dc wc).iterations = 0 := rfl

/-- C1: for every run of the engine that returns (fuel sufficed), the loop
executed at least one iteration (`dQ` starts at `10 × Q_THRESHOLD`, which is
strictly above the threshold), the body was re-entered exactly at the states
whose `dQ` exceeded `Q_THRESHOLD`, the loop stopped at the first iterate
whose `dQ` fell to or below `Q_THRESHOLD`, and the returned state is exactly
that `m`-th iterate — no further assignment/recompute/evaluate step is
applied after it (`iterations = m`). -/
theorem claim_C1_loop_runs_to_first_convergence (doc_matrix : List (List ℝ))
    (k dc wc fuel : ℕ) (sf : EngineState)
    (h : runSPKMeansTrace doc_matrix k dc wc fuel = some sf) :
    ∃ m, 1 ≤ m ∧ m ≤ fuel ∧
      sf = (stepState (txnScheme doc_matrix dc wc) wc)^[m]
        (initState doc_matrix k dc wc) ∧
      sf.iterations = m ∧
      sf.dQ ≤ Q_THRESHOLD ∧
      ∀ m' < m, ((stepState (txnScheme doc_matrix dc wc) wc)^[m']
        (initState doc_matrix k dc wc)).dQ > Q_THRESHOLD := by
  obtain ⟨m, hm, heq, hstop, hprev⟩ :=
    loopGo_spec (txnScheme doc_matrix dc wc) wc fuel
      (initState doc_matrix k dc wc) sf h
  have hm1 : 1 ≤ m := by
    rcases Nat.eq_zero_or_pos m with h0 | h1
    · subst h0
      rw [Function.iterate_zero_apply, initState_dQ] at hstop
      have : Q_THRESHOLD > 0 := by norm_num [Q_THRESHOLD]
      nlinarith
    · exact h1
  refine ⟨m, hm1, hm, heq, ?_, ?_, hprev⟩
  · rw [heq, iterate_stepState_iterations, initState_iterations, zero_add]
  · rw [heq]
    exact hstop

/-! ### The partition invariant across iterations -/

theorem txnScheme_length (doc_matrix : List (List ℝ)) (dc wc : ℕ) :
    (txnScheme doc_matrix dc wc).length = dc :=
  length_range_map ..

theorem stepState_partitions (docs : List (List ℝ)) (wc : ℕ)
    (s : EngineState) :
    (stepState docs wc s).partitions = assignStep docs s.concepts wc := rfl

theorem stepState_concepts (docs : List (List ℝ)) (wc : ℕ)
    (s : EngineState) :
    (stepState docs wc s).concepts =
      (assignStep docs s.concepts wc).map
        (fun p => computeConcept (memberVecs docs p) wc) := rfl

theorem initState_partitions (doc_matrix : List (List ℝ)) (k dc wc : ℕ) :
    (initState doc_matrix k dc wc).partitions = initPartitions dc k := rfl

theorem initState_concepts (doc_matrix : List (List ℝ)) (k dc wc : ℕ) :
    (initState doc_matrix k dc wc).concepts =
      (initPartitions dc k).map
        (fun p => computeConcept
          (memberVecs (txnScheme doc_matrix dc wc) p) wc) := rfl

/-- Structural invariant of every reachable engine state: `k` partitions,
`k` concepts, and the partitions' concatenated document references are a
permutation of `0, …, dc-1`. -/
theorem engine_invariant (doc_matrix : List (List ℝ)) (k dc wc : ℕ)
    (hk1 : 1 ≤ k) (hkd : k ≤ dc) :
    ∀ m : ℕ,
      ((stepState (txnScheme doc_matrix dc wc) wc)^[m]
        (initState doc_matrix k dc wc)).partitions.length = k ∧
      ((stepState (txnScheme doc_matrix dc wc) wc)^[m]
        (initState doc_matrix k dc wc)).concepts.length = k ∧
      ((stepState (txnScheme doc_matrix dc wc) wc)^[m]
        (initState doc_matrix k dc wc)).partitions.flatten.Perm
        (List.range dc) := by
  intro m
  induction m with
  | zero =>
    rw [Function.iterate_zero_apply]
    refine ⟨?_, ?_, ?_⟩
    · rw [initState_partitions, initPartitions_length]
    · rw [initState_concepts, List.length_map, initPartitions_length]
    · rw [initState_partitions, initPartitions_flatten dc k hk1 hkd]
  | succ m ih =>
    obtain ⟨hp, hc, hperm⟩ := ih
    have hcne : ((stepState (txnScheme doc_matrix dc wc) wc)^[m]
        (initState doc_matrix k dc wc)).concepts ≠ [] := by
      intro hnil
      rw [hnil] at hc
      simp at hc
      omega
    rw [Function.iterate_succ_apply']
    refine ⟨?_, ?_, ?_⟩
    · rw [stepState_partitions, assignStep_length, hc]
    · rw [stepState_concepts, List.length_map, assignStep_length, hc]
    · rw [stepState_partitions]
      have h := assignStep_flatten_perm (txnScheme doc_matrix dc wc)
        ((stepState (txnScheme doc_matrix dc wc) wc)^[m]
          (initState doc_matrix k dc wc)).concepts wc hcne
      rw [txnScheme_length] at h
      exact h

/-- C5: at every iteration (`m = 0` is the state after the initial
partitioning; `m ≥ 1` the states after each assignment step), the `k`
partitions are mutually exclusive and collectively exhaustive over the `dc`
document references — every document index below `dc` occurs in the
concatenated partitions exactly once, nothing else occurs, and the recorded
partition sizes sum to `dc`. -/
theorem claim_C5_partition_invariant (doc_matrix : List (List ℝ))
    (k dc wc : ℕ) (hk1 : 1 ≤ k) (hkd : k ≤ dc) (m : ℕ) :
    ((stepState (txnScheme doc_matrix dc wc) wc)^[m]
      (initState doc_matrix k dc wc)).partitions.length = k ∧
    (∀ i, i < dc →
      ((stepState (txnScheme doc_matrix dc wc) wc)^[m]
        (initState doc_matrix k dc wc)).partitions.flatten.count i = 1) ∧
    (∀ i, i ∈ ((stepState (txnScheme doc_matrix dc wc) wc)^[m]
        (initState doc_matrix k dc wc)).partitions.flatten → i < dc) ∧
    (((stepState (txnScheme doc_matrix dc wc) wc)^[m]
      (initState doc_matrix k dc wc)).partitions.map List.length).sum = dc := by
  obtain ⟨hp, _, hperm⟩ := engine_invariant doc_matrix k dc wc hk1 hkd m
  refine ⟨hp, ?_, ?_, ?_⟩
  · intro i hi
    rw [List.perm_iff_count.1 hperm i]
    exact List.count_eq_one_of_mem (List.nodup_range dc) (List.mem_range.2 hi)
  · intro i hi
    exact List.mem_range.1 (hperm.mem_iff.1 hi)
  · rw [← List.length_flatten, hperm.length_eq, List.length_range]

/-! ### C2: the assignment step assigns each document to the argmax concept -/

/-- C2: in every assignment step, each of the `dc` document vectors lands in
the bucket of the concept vector of maximum cosine similarity among all `k`
concept vectors; when several concepts attain the maximum, the document goes
to the lowest-indexed one (the strict `>` comparison makes the first-seen
maximum win). -/
theorem claim_C2_assignment_argmax (docs : List (List ℝ))
    (concepts : List (List ℝ)) (wc : ℕ) (hk : concepts ≠ []) (i : ℕ)
    (hi : i < docs.length) :
    assignOne (docs.getD i []) concepts wc < concepts.length ∧
    i ∈ (assignStep docs concepts wc).getD
      (assignOne (docs.getD i []) concepts wc) [] ∧
    (∀ j < concepts.length,
      cosineSimilarity (docs.getD i []) (concepts.getD j []) wc ≤
        cosineSimilarity (docs.getD i [])
          (concepts.getD (assignOne (docs.getD i []) concepts wc) []) wc) ∧
    (∀ j < assignOne (docs.getD i []) concepts wc,
      cosineSimilarity (docs.getD i []) (concepts.getD j []) wc <
        cosineSimilarity (docs.getD i [])
          (concepts.getD (assignOne (docs.getD i []) concepts wc) []) wc) := by
  obtain ⟨hlt, hmax, hfirst⟩ := assignOne_spec (docs.getD i []) concepts wc hk
  refine ⟨hlt, ?_, hmax, hfirst⟩
  rw [assignStep_getD docs concepts wc hk hlt]
  rw [List.mem_filter]
  exact ⟨List.mem_range.2 hi, by simp⟩

/-! ### C3: concept vectors are the normalized scaled member sums -/

/-- C3: for every partition with a nonzero member sum (in particular
non-empty) and positive word count, the computed concept vector equals the
member-sum vector scaled by `1/wc` and then normalized to unit Euclidean
norm, in that order, and the resulting concept vector has Euclidean norm
exactly 1. -/
theorem claim_C3_concept_unit_norm (partition : List (List ℝ)) (wc : ℕ)
    (hwc : 0 < wc)
    (hs : vec_sum partition wc ≠ List.replicate wc 0) :
    computeConcept partition wc =
      vec_normalize
        (vec_multiply (vec_sum partition wc) wc (1 / (wc : ℝ))) wc ∧
    vec_norm (computeConcept partition wc) wc = 1 :=
  ⟨computeConcept_eq_normalize partition wc,
    computeConcept_norm_one (scaled_sum_norm_ne_zero hwc hs)⟩

/-! ### C7: cosine similarity degenerates to the dot product on unit vectors -/

/-- Modelled from the spec's words, for the refinement comparison of C7: the
best-concept scan of the assignment step with the plain dot product in place
of `cosineSimilarity`. -/
noncomputable def dotBestAux (dv : List ℝ) (wc : ℕ) :
    List (List ℝ) → ℕ → ℕ × ℝ → ℕ × ℝ
  | [], _, acc => acc
  | cv :: rest, j, acc =>
    let new_cVal := vec_dot dv cv wc
    dotBestAux dv wc rest (j + 1)
      (if new_cVal > acc.2 then (j, new_cVal) else acc)

/-- Modelled from the spec's words: the assignment index computed with plain
dot products. -/
noncomputable def dotAssignOne (dv : List ℝ) (concepts : List (List ℝ))
    (wc : ℕ) : ℕ :=
  match concepts with
  | [] => 0
  | c0 :: rest => (dotBestAux dv wc rest 1 (0, vec_dot dv c0 wc)).1

/-- Modelled from the spec's words: the assignment step with plain dot
products. -/
noncomputable def dotAssignStep (docs : List (List ℝ))
    (concepts : List (List ℝ)) (wc : ℕ) : List (List ℕ) :=
  (List.range docs.length).foldl
    (fun ps i => pushDoc ps (dotAssignOne (docs.getD i []) concepts wc) i)
    (List.replicate concepts.length [])

/-- After the TXN normalization pass, every document with nonzero norm has
unit norm. -/
theorem txnScheme_unit (doc_matrix : List (List ℝ)) (dc wc : ℕ) (i : ℕ)
    (hi : i < dc) (hnz : vec_norm (doc_matrix.getD i []) wc ≠ 0) :
    vec_norm ((txnScheme doc_matrix dc wc).getD i []) wc = 1 := by
  unfold txnScheme
  rw [getD_range_map _ _ hi]
  exact vec_normalize_norm_one hnz

theorem foldl_congr_mem {α β : Type} (l : List α) (f g : β → α → β)
    (h : ∀ b : β, ∀ a ∈ l, f b a = g b a) :
    ∀ init : β, l.foldl f init = l.foldl g init := by
  induction l with
  | nil => intro init; rfl
  | cons a l ih =>
    intro init
    rw [List.foldl_cons, List.foldl_cons, h init a (List.mem_cons_self a l),
      ih (fun b x hx => h b x (List.mem_cons_of_mem _ hx))]

theorem dotBestAux_eq_bestAux (dv : List ℝ) (wc : ℕ)
    (hd : vec_norm dv wc = 1) (cs : List (List ℝ))
    (hcs : ∀ c ∈ cs, vec_norm c wc = 1) :
    ∀ (j : ℕ) (acc : ℕ × ℝ),
      dotBestAux dv wc cs j acc = bestAux dv wc cs j acc := by
  induction cs with
  | nil => intro j acc; rfl
  | cons c cs ih =>
    intro j acc
    have hc : vec_norm c wc = 1 := hcs c (List.mem_cons_self c cs)
    have hsim : vec_dot dv c wc = cosineSimilarity dv c wc :=
      (cosineSimilarity_unit hd hc).symm
    rw [dotBestAux, bestAux, hsim,
      ih (fun x hx => hcs x (List.mem_cons_of_mem _ hx))]

theorem dotAssignOne_eq_assignOne (dv : List ℝ) (concepts : List (List ℝ))
    (wc : ℕ) (hd : vec_norm dv wc = 1)
    (hcs : ∀ c ∈ concepts, vec_norm c wc = 1) :
    dotAssignOne dv concepts wc = assignOne dv concepts wc := by
  match concepts with
  | [] => rfl
  | c0 :: rest =>
    show (dotBestAux dv wc rest 1 (0, vec_dot dv c0 wc)).1 =
      (bestAux dv wc rest 1 (0, cosineSimilarity dv c0 wc)).1
    rw [(cosineSimilarity_unit hd
        (hcs c0 (List.mem_cons_self c0 rest))).symm,
      dotBestAux_eq_bestAux dv wc hd rest
        (fun x hx => hcs x (List.mem_cons_of_mem _ hx))]

/-- C7: when every document vector is unit-norm (as produced by Step 0 on
nonzero documents) and every concept vector is unit-norm (as produced by
Step 2 on nondegenerate partitions), the similarity value used by the
assignment step, `dot(dv,cv) / (norm(dv) * norm(cv))`, equals the plain dot
product for every document/concept pair, and the assignment step computed
with plain dot products selects the same partition for every document —
the two assignment steps produce identical bucket lists. -/
theorem claim_C7_cosine_is_dot_on_unit_vectors (docs : List (List ℝ))
    (concepts : List (List ℝ)) (wc : ℕ)
    (hdocs : ∀ v ∈ docs, vec_norm v wc = 1)
    (hcs : ∀ c ∈ concepts, vec_norm c wc = 1) :
    (∀ v ∈ docs, ∀ c ∈ concepts,
      cosineSimilarity v c wc = vec_dot v c wc) ∧
    dotAssignStep docs concepts wc = assignStep docs concepts wc := by
  constructor
  · intro v hv c hc
    exact cosineSimilarity_unit (hdocs v hv) (hcs c hc)
  · unfold dotAssignStep assignStep
    refine foldl_congr_mem _ _ _ ?_ _
    intro ps i hi
    have hiv : vec_norm (docs.getD i []) wc = 1 := by
      have hilen : i < docs.length := List.mem_range.1 hi
      have : docs.getD i [] ∈ docs := by
        rw [List.getD_eq_getElem?_getD, List.getElem?_eq_getElem hilen]
        exact List.getElem_mem hilen
      exact hdocs _ this
    rw [dotAssignOne_eq_assignOne _ _ _ hiv hcs]

/-! ### Cauchy–Schwarz and sum decompositions for the quality chain -/

theorem vec_dot_le_norm_mul_norm (a b : List ℝ) (n : ℕ) :
    vec_dot a b n ≤ vec_norm a n * vec_norm b n := by
  have hcs : vec_dot a b n * vec_dot a b n ≤
      vec_dot a a n * vec_dot b b n := by
    have h := Finset.sum_mul_sq_le_sq_mul_sq (Finset.range n)
      (fun i => a.getD i 0) (fun i => b.getD i 0)
    calc vec_dot a b n * vec_dot a b n
        = (∑ i in Finset.range n, a.getD i 0 * b.getD i 0) ^ 2 := by
          rw [sq]; rfl
      _ ≤ (∑ i in Finset.range n, a.getD i 0 ^ 2) *
            ∑ i in Finset.range n, b.getD i 0 ^ 2 := h
      _ = vec_dot a a n * vec_dot b b n := by
          unfold vec_dot
          congr 1 <;> exact Finset.sum_congr rfl fun i _ => pow_two _
  calc vec_dot a b n ≤ |vec_dot a b n| := le_abs_self _
    _ = Real.sqrt (vec_dot a b n * vec_dot a b n) :=
        (Real.sqrt_mul_self_eq_abs _).symm
    _ ≤ Real.sqrt (vec_dot a a n * vec_dot b b n) := Real.sqrt_le_sqrt hcs
    _ = vec_norm a n * vec_norm b n := by
        unfold vec_norm
        exact Real.sqrt_mul (vec_dot_self_nonneg a n) _

theorem vec_dot_sum_left (vs : List (List ℝ)) (c : List ℝ) (n : ℕ) :
    vec_dot (vec_sum vs n) c n = (vs.map (fun v => vec_dot v c n)).sum := by
  induction vs with
  | nil =>
    rw [List.map_nil, List.sum_nil]
    refine Finset.sum_eq_zero fun i hi => ?_
    rw [vec_sum_getD (Finset.mem_range.1 hi), List.map_nil, List.sum_nil,
      zero_mul]
  | cons v vs ih =>
    rw [List.map_cons, List.sum_cons, ← ih]
    show (∑ i in Finset.range n,
        (vec_sum (v :: vs) n).getD i 0 * c.getD i 0) = _
    rw [Finset.sum_congr rfl (fun i hi => by
      rw [vec_sum_getD (Finset.mem_range.1 hi), List.map_cons, List.sum_cons,
        ← @vec_sum_getD vs n i (Finset.mem_range.1 hi), add_mul])]
    exact Finset.sum_add_distrib

theorem getD_map_lt {α β : Type} (f : α → β) {l : List α} {j : ℕ}
    (h : j < l.length) (d : β) (d' : α) :
    (l.map f).getD j d = f (l.getD j d') := by
  rw [List.getD_eq_getElem?_getD, List.getElem?_map,
    List.getElem?_eq_getElem h, List.getD_eq_getElem?_getD,
    List.getElem?_eq_getElem h]
  rfl

theorem map_sum_eq_range_sum {α : Type} {M : Type} [AddCommMonoid M]
    (P : List α) (F : α → M) (d : α) :
    (P.map F).sum = ∑ j in Finset.range P.length, F (P.getD j d) := by
  induction P with
  | nil => rfl
  | cons a P ih =>
    rw [List.map_cons, List.sum_cons, List.length_cons,
      Finset.sum_range_succ']
    simp only [List.getD_cons_succ, List.getD_cons_zero]
    rw [ih, add_comm]

theorem getD_mem_of_lt {α : Type} {l : List α} {j : ℕ} (h : j < l.length)
    (d : α) : l.getD j d ∈ l := by
  rw [List.getD_eq_getElem?_getD, List.getElem?_eq_getElem h]
  exact List.getElem_mem h

theorem list_range_map_sum {M : Type} [AddCommMonoid M] (n : ℕ) (g : ℕ → M) :
    ((List.range n).map g).sum = ∑ i in Finset.range n, g i := by
  induction n with
  | zero => rfl
  | succ n ih =>
    rw [List.range_succ, List.map_append, List.sum_append, ih,
      Finset.sum_range_succ, List.map_cons, List.map_nil, List.sum_cons,
      List.sum_nil, add_zero]

/-- The quality of the state after one assignment+recompute+evaluate step is
the sum of the member-sum norms of the new buckets. -/
theorem stepState_quality_eq (docs : List (List ℝ)) (wc k : ℕ)
    (hwc : 0 < wc) (s : EngineState) (hCl : s.concepts.length = k) :
    (stepState docs wc s).quality =
      ∑ j in Finset.range k,
        Real.sqrt (vec_dot
          (vec_sum (memberVecs docs
            ((assignStep docs s.concepts wc).getD j [])) wc)
          (vec_sum (memberVecs docs
            ((assignStep docs s.concepts wc).getD j [])) wc) wc) := by
  have hnewlen : (assignStep docs s.concepts wc).length = k := by
    rw [assignStep_length, hCl]
  show computeQuality
      ((assignStep docs s.concepts wc).map (memberVecs docs))
      ((assignStep docs s.concepts wc).map
        (fun p => computeConcept (memberVecs docs p) wc))
      (assignStep docs s.concepts wc).length wc = _
  rw [hnewlen]
  unfold computeQuality
  refine Finset.sum_congr rfl fun j hj => ?_
  have hjk : j < (assignStep docs s.concepts wc).length := by
    rw [hnewlen]
    exact Finset.mem_range.1 hj
  rw [getD_map_lt _ hjk _ [], getD_map_lt _ hjk _ []]
  exact computeQuality1_concept _ hwc

/-- Core of C6: one step of the loop cannot decrease the quality, provided
every document vector is unit-norm and every old partition has a nonzero
member sum. -/
theorem step_quality_nondecreasing (docs : List (List ℝ)) (wc k dc : ℕ)
    (hwc : 0 < wc) (hk1 : 1 ≤ k) (hdc : docs.length = dc)
    (Hunit : ∀ v ∈ docs, vec_norm v wc = 1) (s : EngineState)
    (hpl : s.partitions.length = k)
    (hcon : s.concepts =
      s.partitions.map (fun p => computeConcept (memberVecs docs p) wc))
    (hq : s.quality =
      computeQuality (s.partitions.map (memberVecs docs)) s.concepts k wc)
    (hperm : s.partitions.flatten.Perm (List.range dc))
    (hnd : ∀ j < k,
      vec_sum (memberVecs docs (s.partitions.getD j [])) wc ≠
        List.replicate wc 0) :
    s.quality ≤ (stepState docs wc s).quality := by
  have hCl : s.concepts.length = k := by
    rw [hcon, List.length_map, hpl]
  have hCne : s.concepts ≠ [] := by
    intro hnil
    rw [hnil] at hCl
    simp at hCl
    omega
  have hflt : ∀ i : ℕ, assignOne (docs.getD i []) s.concepts wc < k :=
    fun i => hCl ▸ assignOne_lt_length (docs.getD i []) s.concepts wc hCne
  have hCunit : ∀ j < k, vec_norm (s.concepts.getD j []) wc = 1 := by
    intro j hj
    rw [hcon, getD_map_lt _ (by rw [hpl]; exact hj) _ []]
    exact computeConcept_norm_one (scaled_sum_norm_ne_zero hwc (hnd j hj))
  have hDunit : ∀ i < dc, vec_norm (docs.getD i []) wc = 1 := by
    intro i hi
    exact Hunit _ (getD_mem_of_lt (by omega) [])
  -- the per-document dot product against the concept chosen for it
  set g : ℕ → ℝ := fun i =>
    vec_dot (docs.getD i [])
      (s.concepts.getD (assignOne (docs.getD i []) s.concepts wc) []) wc
    with hg
  -- Step 1: old quality ≤ ∑ i < dc, g i
  have hstep1 : s.quality ≤ ∑ i in Finset.range dc, g i := by
    rw [hq]
    unfold computeQuality
    have hform : ∀ j ∈ Finset.range k,
        computeQuality1 ((s.partitions.map (memberVecs docs)).getD j [])
          (s.concepts.getD j []) wc =
        ((s.partitions.getD j []).map (fun i =>
          vec_dot (docs.getD i []) (s.concepts.getD j []) wc)).sum := by
      intro j hj
      rw [getD_map_lt _ (by rw [hpl]; exact Finset.mem_range.1 hj) _ []]
      unfold computeQuality1
      rw [vec_dot_sum_left]
      unfold memberVecs
      rw [List.map_map]
      rfl
    rw [Finset.sum_congr rfl hform]
    have hmem_lt : ∀ j < k, ∀ i ∈ s.partitions.getD j [], i < dc := by
      intro j hj i hi
      have himem : i ∈ s.partitions.flatten :=
        List.mem_flatten.2 ⟨s.partitions.getD j [],
          getD_mem_of_lt (by rw [hpl]; exact hj) [], hi⟩
      exact List.mem_range.1 (hperm.mem_iff.1 himem)
    have hptw : ∀ j ∈ Finset.range k,
        ((s.partitions.getD j []).map (fun i =>
          vec_dot (docs.getD i []) (s.concepts.getD j []) wc)).sum ≤
        ((s.partitions.getD j []).map g).sum := by
      intro j hj
      refine List.sum_le_sum fun i hi => ?_
      have hik : i < dc :=
        hmem_lt j (Finset.mem_range.1 hj) i hi
      have hdu : vec_norm (docs.getD i []) wc = 1 := hDunit i hik
      have hspec := assignOne_spec (docs.getD i []) s.concepts wc hCne
      have hle := hspec.2.1 j (by rw [hCl]; exact Finset.mem_range.1 hj)
      rw [cosineSimilarity_unit hdu
          (hCunit j (Finset.mem_range.1 hj)),
        cosineSimilarity_unit hdu
          (hCunit _ (hflt i))] at hle
      exact hle
    refine le_trans (Finset.sum_le_sum hptw) (le_of_eq ?_)
    -- ∑ j < k, ∑ over bucket j of g = ∑ i < dc, g i
    calc ∑ j in Finset.range k, ((s.partitions.getD j []).map g).sum
        = (s.partitions.map (fun p => (p.map g).sum)).sum := by
          rw [map_sum_eq_range_sum s.partitions (fun p => (p.map g).sum) [],
            hpl]
      _ = (s.partitions.flatten.map g).sum := by
          rw [List.map_flatten, List.sum_flatten, List.map_map]
          rfl
      _ = ((List.range dc).map g).sum := (hperm.map g).sum_eq
      _ = ∑ i in Finset.range dc, g i := list_range_map_sum dc g
  -- Step 2: regroup the per-document dots along the new buckets
  have hstep2 : (∑ i in Finset.range dc, g i) =
      ∑ j in Finset.range k, vec_dot
        (vec_sum (memberVecs docs
          ((assignStep docs s.concepts wc).getD j [])) wc)
        (s.concepts.getD j []) wc := by
    have hform : ∀ j ∈ Finset.range k,
        vec_dot (vec_sum (memberVecs docs
          ((assignStep docs s.concepts wc).getD j [])) wc)
          (s.concepts.getD j []) wc =
        (((List.range docs.length).filter
          (fun i => assignOne (docs.getD i []) s.concepts wc == j)).map
            g).sum := by
      intro j hj
      rw [vec_dot_sum_left]
      unfold memberVecs
      rw [List.map_map,
        assignStep_getD docs s.concepts wc hCne
          (by rw [hCl]; exact Finset.mem_range.1 hj)]
      refine congrArg _ (List.map_congr_left fun i hi => ?_)
      have hfij : assignOne (docs.getD i []) s.concepts wc = j := by
        simpa using (List.mem_filter.1 hi).2
      show vec_dot (docs.getD i []) (s.concepts.getD j []) wc = g i
      rw [hg, ← hfij]
    rw [Finset.sum_congr rfl hform,
      ← list_range_map_sum k (fun j => (((List.range docs.length).filter
        (fun i => assignOne (docs.getD i []) s.concepts wc == j)).map g).sum),
      fiber_sum (List.range docs.length) _ g k (fun i _ => hflt i),
      hdc, list_range_map_sum]
  -- Step 3: each new bucket's dot against the old concept is at most the
  -- bucket's member-sum norm, which sums to the new quality
  have hstep3 : (∑ j in Finset.range k, vec_dot
      (vec_sum (memberVecs docs
        ((assignStep docs s.concepts wc).getD j [])) wc)
      (s.concepts.getD j []) wc) ≤ (stepState docs wc s).quality := by
    rw [stepState_quality_eq docs wc k hwc s hCl]
    refine Finset.sum_le_sum fun j hj => ?_
    calc vec_dot (vec_sum (memberVecs docs
          ((assignStep docs s.concepts wc).getD j [])) wc)
          (s.concepts.getD j []) wc
        ≤ vec_norm (vec_sum (memberVecs docs
            ((assignStep docs s.concepts wc).getD j [])) wc) wc *
          vec_norm (s.concepts.getD j []) wc :=
          vec_dot_le_norm_mul_norm _ _ wc
      _ = vec_norm (vec_sum (memberVecs docs
            ((assignStep docs s.concepts wc).getD j [])) wc) wc := by
          rw [hCunit j (Finset.mem_range.1 hj), mul_one]
      _ = Real.sqrt (vec_dot
            (vec_sum (memberVecs docs
              ((assignStep docs s.concepts wc).getD j [])) wc)
            (vec_sum (memberVecs docs
              ((assignStep docs s.concepts wc).getD j [])) wc) wc) := rfl
  calc s.quality ≤ ∑ i in Finset.range dc, g i := hstep1
    _ = _ := hstep2
    _ ≤ (stepState docs wc s).quality := hstep3

theorem txnScheme_all_unit (doc_matrix : List (List ℝ)) (dc wc : ℕ)
    (hnz : ∀ i < dc, vec_norm (doc_matrix.getD i []) wc ≠ 0) :
    ∀ v ∈ txnScheme doc_matrix dc wc, vec_norm v wc = 1 := by
  intro v hv
  unfold txnScheme at hv
  obtain ⟨i, hi, rfl⟩ := List.mem_map.1 hv
  exact vec_normalize_norm_one (hnz i (List.mem_range.1 hi))

theorem iterate_concepts_eq (doc_matrix : List (List ℝ)) (k dc wc m : ℕ) :
    ((stepState (txnScheme doc_matrix dc wc) wc)^[m]
      (initState doc_matrix k dc wc)).concepts =
    ((stepState (txnScheme doc_matrix dc wc) wc)^[m]
      (initState doc_matrix k dc wc)).partitions.map
      (fun p => computeConcept
        (memberVecs (txnScheme doc_matrix dc wc) p) wc) := by
  cases m with
  | zero => rfl
  | succ m => rw [Function.iterate_succ_apply']; rfl

theorem iterate_quality_eq (doc_matrix : List (List ℝ)) (k dc wc : ℕ)
    (hk1 : 1 ≤ k) (hkd : k ≤ dc) (m : ℕ) :
    ((stepState (txnScheme doc_matrix dc wc) wc)^[m]
      (initState doc_matrix k dc wc)).quality =
    computeQuality
      (((stepState (txnScheme doc_matrix dc wc) wc)^[m]
        (initState doc_matrix k dc wc)).partitions.map
        (memberVecs (txnScheme doc_matrix dc wc)))
      ((stepState (txnScheme doc_matrix dc wc) wc)^[m]
        (initState doc_matrix k dc wc)).concepts k wc := by
  cases m with
  | zero => rfl
  | succ m =>
    have hlen := (engine_invariant doc_matrix k dc wc hk1 hkd (m + 1)).1
    rw [Function.iterate_succ_apply'] at hlen ⊢
    have hlen2 : (assignStep (txnScheme doc_matrix dc wc)
        ((stepState (txnScheme doc_matrix dc wc) wc)^[m]
          (initState doc_matrix k dc wc)).concepts wc).length = k := hlen
    show computeQuality _ _ (assignStep (txnScheme doc_matrix dc wc)
      ((stepState (txnScheme doc_matrix dc wc) wc)^[m]
        (initState doc_matrix k dc wc)).concepts wc).length wc = _
    rw [hlen2]
    rfl

/-- C6: for non-degenerate runs — no zero document vector, and no reachable
partition (up to step `M`) with a zero member sum — the sequence of quality
values across iterations is non-decreasing from the initial quality, and
equivalently every computed `dQ` is nonnegative. -/
theorem claim_C6_quality_monotone (doc_matrix : List (List ℝ))
    (k dc wc M : ℕ) (hwc : 0 < wc) (hk1 : 1 ≤ k) (hkd : k ≤ dc)
    (hnz : ∀ i < dc, vec_norm (doc_matrix.getD i []) wc ≠ 0)
    (hnd : ∀ m ≤ M, ∀ j < k,
      vec_sum (memberVecs (txnScheme doc_matrix dc wc)
        (((stepState (txnScheme doc_matrix dc wc) wc)^[m]
          (initState doc_matrix k dc wc)).partitions.getD j [])) wc ≠
        List.replicate wc 0) :
    ∀ m < M,
      ((stepState (txnScheme doc_matrix dc wc) wc)^[m]
        (initState doc_matrix k dc wc)).quality ≤
      ((stepState (txnScheme doc_matrix dc wc) wc)^[m + 1]
        (initState doc_matrix k dc wc)).quality ∧
      0 ≤ ((stepState (txnScheme doc_matrix dc wc) wc)^[m + 1]
        (initState doc_matrix k dc wc)).dQ := by
  intro m hm
  obtain ⟨hpl, _, hperm⟩ := engine_invariant doc_matrix k dc wc hk1 hkd m
  have hmain := step_quality_nondecreasing (txnScheme doc_matrix dc wc) wc k
    dc hwc hk1 (txnScheme_length doc_matrix dc wc)
    (txnScheme_all_unit doc_matrix dc wc hnz)
    ((stepState (txnScheme doc_matrix dc wc) wc)^[m]
      (initState doc_matrix k dc wc))
    hpl (iterate_concepts_eq doc_matrix k dc wc m)
    (iterate_quality_eq doc_matrix k dc wc hk1 hkd m) hperm
    (hnd m (by omega))
  rw [← Function.iterate_succ_apply' (stepState (txnScheme doc_matrix dc wc) wc)
    m (initState doc_matrix k dc wc)] at hmain
  refine ⟨hmain, ?_⟩
  have hdq : ((stepState (txnScheme doc_matrix dc wc) wc)^[m + 1]
      (initState doc_matrix k dc wc)).dQ =
      ((stepState (txnScheme doc_matrix dc wc) wc)^[m + 1]
        (initState doc_matrix k dc wc)).quality -
      ((stepState (txnScheme doc_matrix dc wc) wc)^[m]
        (initState doc_matrix k dc wc)).quality := by
    rw [Function.iterate_succ_apply']
    rfl
  rw [hdq]
  linarith

/-! ### Concrete evaluation helpers for two-entry vectors -/

theorem vec_dot_two (a b c d : ℝ) : vec_dot [a, b] [c, d] 2 = a * c + b * d := by
  unfold vec_dot
  rw [Finset.sum_range_succ, Finset.sum_range_one]
  rfl

theorem vec_norm_two (a b : ℝ) :
    vec_norm [a, b] 2 = Real.sqrt (a * a + b * b) := by
  unfold vec_norm
  rw [vec_dot_two]

theorem vec_multiply_two (a b s : ℝ) :
    vec_multiply [a, b] 2 s = [a * s, b * s] := rfl

theorem vec_divide_two (a b s : ℝ) :
    vec_divide [a, b] 2 s = [a / s, b / s] := rfl

theorem vec_sum_one (v1 : List ℝ) :
    vec_sum [v1] 2 = [v1.getD 0 0, v1.getD 1 0] := by
  unfold vec_sum
  show [([v1].map (fun v => v.getD 0 0)).sum,
    ([v1].map (fun v => v.getD 1 0)).sum] = _
  rw [List.map_cons, List.map_nil, List.sum_cons, List.sum_nil,
    List.map_cons, List.map_nil, List.sum_cons, List.sum_nil,
    add_zero, add_zero]

theorem vec_sum_cons (v : List ℝ) (vs : List (List ℝ)) :
    vec_sum (v :: vs) 2 =
      [v.getD 0 0 + (vec_sum vs 2).getD 0 0,
       v.getD 1 0 + (vec_sum vs 2).getD 1 0] := by
  have hA : (vs.map (fun x => x.getD 0 0)).sum = (vec_sum vs 2).getD 0 0 :=
    (vec_sum_getD (by norm_num)).symm
  have hB : (vs.map (fun x => x.getD 1 0)).sum = (vec_sum vs 2).getD 1 0 :=
    (vec_sum_getD (by norm_num)).symm
  have h0 : (vec_sum (v :: vs) 2).getD 0 0 =
      v.getD 0 0 + (vec_sum vs 2).getD 0 0 := by
    rw [vec_sum_getD (by norm_num), List.map_cons, List.sum_cons, hA]
  have h1 : (vec_sum (v :: vs) 2).getD 1 0 =
      v.getD 1 0 + (vec_sum vs 2).getD 1 0 := by
    rw [vec_sum_getD (by norm_num), List.map_cons, List.sum_cons, hB]
  apply List.ext_getElem
  · rw [vec_sum_length]; rfl
  · intro i hi1 hi2
    have hgd : (vec_sum (v :: vs) 2)[i] = (vec_sum (v :: vs) 2).getD i 0 := by
      rw [List.getD_eq_getElem?_getD, List.getElem?_eq_getElem hi1]
      rfl
    have hi2' : i < 2 := by simpa using hi2
    interval_cases i
    · rw [hgd, h0]; rfl
    · rw [hgd, h1]; rfl

/-! ### C9: the normalization pass does not guard the zero vector -/

/-- Counterexample to C9 as stated: on an input containing the all-zero
document vector, the Step-0 normalization pass raises nothing — `txnScheme`
is a total function with no error channel, and it silently maps the zero
document to the degenerate (zero-divided-by-zero) vector, which in this
real-valued model is the zero vector again (in IEEE floats it is the NaN
vector). -/
theorem claim_C9_counterexample :
    txnScheme [[(0 : ℝ), 0]] 1 2 = [[(0 : ℝ), 0]] := by
  unfold txnScheme
  show [vec_normalize ([[(0 : ℝ), 0]].getD 0 []) 2] = _
  rw [List.getD_cons_zero]
  unfold vec_normalize
  rw [vec_norm_two]
  norm_num [Real.sqrt_zero]
  rw [vec_divide_two]
  norm_num

/-- C9 amended: the Step-0 normalization performs the unguarded division of
each document by its own norm; on the all-zero document of any width it
silently produces the degenerate vector (zero in this model, NaN in C)
instead of raising or reporting any condition. -/
theorem claim_C9_amended_no_guard (wc : ℕ) :
    vec_normalize (List.replicate wc 0) wc = List.replicate wc 0 := by
  have hdot : vec_dot (List.replicate wc (0 : ℝ)) (List.replicate wc 0) wc = 0 := by
    refine Finset.sum_eq_zero fun i hi => ?_
    rw [getD_replicate_lt _ _ (Finset.mem_range.1 hi), zero_mul]
  unfold vec_normalize vec_norm
  rw [hdot, Real.sqrt_zero]
  unfold vec_divide
  refine List.eq_replicate_iff.2 ⟨length_range_map _ wc, fun b hb => ?_⟩
  obtain ⟨i, _, rfl⟩ := List.mem_map.1 hb
  rw [div_zero]

/-! ### Concrete run evaluation machinery and witnesses -/

theorem bestAux_nil (dv : List ℝ) (wc : ℕ) (j : ℕ) (acc : ℕ × ℝ) :
    bestAux dv wc [] j acc = acc := rfl

theorem assignOne_single (dv c0 : List ℝ) (wc : ℕ) :
    assignOne dv [c0] wc = 0 := rfl

theorem initPartitions_11 : initPartitions 1 1 = [[0]] := by decide

theorem sqrt_eval {x : ℝ} (c : ℝ) (hc : 0 ≤ c) (h : x = c * c) :
    Real.sqrt x = c := by
  rw [h, Real.sqrt_mul_self hc]

theorem computeConcept_eval2 (p : List (List ℝ)) (a b n x y : ℝ)
    (hsum : vec_sum p 2 = [a, b]) (hn : 0 < n)
    (hab : a * a + b * b = 4 * (n * n))
    (hx : a = 2 * n * x) (hy : b = 2 * n * y) :
    computeConcept p 2 = [x, y] := by
  show vec_divide (vec_multiply (vec_sum p 2) 2 (1 / ((2 : ℕ) : ℝ))) 2
    (vec_norm (vec_multiply (vec_sum p 2) 2 (1 / ((2 : ℕ) : ℝ))) 2) = _
  rw [hsum]
  have hcast : (1 : ℝ) / ((2 : ℕ) : ℝ) = 1 / 2 := by norm_num
  rw [hcast, vec_multiply_two, vec_norm_two]
  have harg : a * (1 / 2) * (a * (1 / 2)) + b * (1 / 2) * (b * (1 / 2)) =
      n * n := by nlinarith [hab]
  rw [sqrt_eval n hn.le harg, vec_divide_two]
  have hne : n ≠ 0 := ne_of_gt hn
  congr 1
  · rw [hx]; field_simp
  congr 1
  · rw [hy]; field_simp

theorem assignOne_pair (dv c0 c1 : List ℝ) (wc : ℕ) :
    assignOne dv [c0, c1] wc =
      if cosineSimilarity dv c1 wc > cosineSimilarity dv c0 wc then 1
      else 0 := by
  show (bestAux dv wc [c1] 1 (0, cosineSimilarity dv c0 wc)).1 = _
  rw [bestAux, bestAux_nil]
  rw [apply_ite Prod.fst]

theorem vec_norm_unit_two (a b : ℝ) (h : a * a + b * b = 1) :
    vec_norm [a, b] 2 = 1 := by
  rw [vec_norm_two, sqrt_eval 1 (by norm_num) (by rw [h]; norm_num)]

theorem vec_sum_ne_zero_two {p : List (List ℝ)} {a b : ℝ}
    (hsum : vec_sum p 2 = [a, b]) (hne : ¬ (a = 0 ∧ b = 0)) :
    vec_sum p 2 ≠ List.replicate 2 0 := by
  rw [hsum]
  intro hcontra
  have : a = 0 ∧ b = 0 := by
    have h0 : ([a, b] : List ℝ).getD 0 0 = (List.replicate 2 (0:ℝ)).getD 0 0 := by
      rw [hcontra]
    have h1 : ([a, b] : List ℝ).getD 1 0 = (List.replicate 2 (0:ℝ)).getD 1 0 := by
      rw [hcontra]
    constructor
    · simpa using h0
    · simpa using h1
  exact hne this

/-- Decision helper: the document keeps index 0 when the squared comparison
of the two (positive) dot products against the member sums does not favor
concept 1. -/
theorem assignOne_pair_stays (dv : List ℝ) (p0 p1 : List (List ℝ))
    (hd : vec_norm dv 2 = 1)
    (hs0 : vec_sum p0 2 ≠ List.replicate 2 0)
    (hs1 : vec_sum p1 2 ≠ List.replicate 2 0)
    (hA0 : 0 ≤ vec_dot dv (vec_sum p0 2) 2)
    (hA1 : 0 ≤ vec_dot dv (vec_sum p1 2) 2)
    (hdec : vec_dot dv (vec_sum p1 2) 2 * vec_dot dv (vec_sum p1 2) 2 *
        vec_dot (vec_sum p0 2) (vec_sum p0 2) 2 ≤
      vec_dot dv (vec_sum p0 2) 2 * vec_dot dv (vec_sum p0 2) 2 *
        vec_dot (vec_sum p1 2) (vec_sum p1 2) 2) :
    assignOne dv [computeConcept p0 2, computeConcept p1 2] 2 = 0 := by
  have hR0 : 0 < vec_dot (vec_sum p0 2) (vec_sum p0 2) 2 :=
    vec_dot_self_pos (vec_sum_length p0 2) hs0
  have hR1 : 0 < vec_dot (vec_sum p1 2) (vec_sum p1 2) 2 :=
    vec_dot_self_pos (vec_sum_length p1 2) hs1
  rw [assignOne_pair, if_neg]
  rw [cosineSimilarity_concept dv p0 (by norm_num) hd hs0,
    cosineSimilarity_concept dv p1 (by norm_num) hd hs1]
  rw [not_lt, div_sqrt_le_div_sqrt hA1 hA0 hR1 hR0]
  exact hdec

/-- Decision helper: the document moves to index 1 when the squared
comparison strictly favors concept 1. -/
theorem assignOne_pair_moves (dv : List ℝ) (p0 p1 : List (List ℝ))
    (hd : vec_norm dv 2 = 1)
    (hs0 : vec_sum p0 2 ≠ List.replicate 2 0)
    (hs1 : vec_sum p1 2 ≠ List.replicate 2 0)
    (hA0 : 0 ≤ vec_dot dv (vec_sum p0 2) 2)
    (hA1 : 0 ≤ vec_dot dv (vec_sum p1 2) 2)
    (hdec : vec_dot dv (vec_sum p0 2) 2 * vec_dot dv (vec_sum p0 2) 2 *
        vec_dot (vec_sum p1 2) (vec_sum p1 2) 2 <
      vec_dot dv (vec_sum p1 2) 2 * vec_dot dv (vec_sum p1 2) 2 *
        vec_dot (vec_sum p0 2) (vec_sum p0 2) 2) :
    assignOne dv [computeConcept p0 2, computeConcept p1 2] 2 = 1 := by
  have hR0 : 0 < vec_dot (vec_sum p0 2) (vec_sum p0 2) 2 :=
    vec_dot_self_pos (vec_sum_length p0 2) hs0
  have hR1 : 0 < vec_dot (vec_sum p1 2) (vec_sum p1 2) 2 :=
    vec_dot_self_pos (vec_sum_length p1 2) hs1
  rw [assignOne_pair, if_pos]
  rw [cosineSimilarity_concept dv p0 (by norm_num) hd hs0,
    cosineSimilarity_concept dv p1 (by norm_num) hd hs1]
  rw [gt_iff_lt, div_sqrt_lt_div_sqrt hA0 hA1 hR0 hR1]
  exact hdec

theorem loopGo_succ (docs : List (List ℝ)) (wc fuel : ℕ) (s : EngineState) :
    loopGo docs wc (fuel + 1) s =
      if s.dQ > Q_THRESHOLD then loopGo docs wc fuel (stepState docs wc s)
      else some s := rfl

theorem loopGo_zero (docs : List (List ℝ)) (wc : ℕ) (s : EngineState) :
    loopGo docs wc 0 s = if s.dQ > Q_THRESHOLD then none else some s := rfl

theorem computeQuality_one (P1 : List (List ℝ)) (c1 : List ℝ) (wc : ℕ) :
    computeQuality [P1] [c1] 1 wc = computeQuality1 P1 c1 wc := by
  unfold computeQuality
  rw [Finset.sum_range_one]
  rfl

theorem computeQuality_two (P1 P2 : List (List ℝ)) (c1 c2 : List ℝ) (wc : ℕ) :
    computeQuality [P1, P2] [c1, c2] 2 wc =
      computeQuality1 P1 c1 wc + computeQuality1 P2 c2 wc := by
  unfold computeQuality
  rw [Finset.sum_range_succ, Finset.sum_range_one]
  rfl

theorem c1w_txn : txnScheme [[(1 : ℝ), 0]] 1 2 = [[(1 : ℝ), 0]] := by
  unfold txnScheme
  show [vec_normalize ([[(1 : ℝ), 0]].getD 0 []) 2] = _
  rw [List.getD_cons_zero]
  unfold vec_normalize
  rw [vec_norm_two,
    sqrt_eval 1 (by norm_num) (by norm_num : (1 : ℝ) * 1 + 0 * 0 = 1 * 1),
    vec_divide_two]
  norm_num

theorem c1w_sum : vec_sum [[(1 : ℝ), 0]] 2 = [(1 : ℝ), 0] := by
  rw [vec_sum_one]
  norm_num

theorem c1w_concept : computeConcept [[(1 : ℝ), 0]] 2 = [(1 : ℝ), 0] :=
  computeConcept_eval2 _ 1 0 (1 / 2) 1 0 c1w_sum (by norm_num) (by norm_num)
    (by norm_num) (by norm_num)

theorem c1w_init : initState [[(1 : ℝ), 0]] 1 1 2 =
    ⟨[[0]], [[(1 : ℝ), 0]], 1, Q_THRESHOLD * 10, 0⟩ := by
  show EngineState.mk (initPartitions 1 1)
      ((initPartitions 1 1).map (fun p =>
        computeConcept (memberVecs (txnScheme [[(1 : ℝ), 0]] 1 2) p) 2))
      (computeQuality
        ((initPartitions 1 1).map (memberVecs (txnScheme [[(1 : ℝ), 0]] 1 2)))
        ((initPartitions 1 1).map (fun p =>
          computeConcept (memberVecs (txnScheme [[(1 : ℝ), 0]] 1 2) p) 2)) 1 2)
      (Q_THRESHOLD * 10) 0 = _
  rw [c1w_txn, initPartitions_11]
  show EngineState.mk [[0]] [computeConcept [[(1 : ℝ), 0]] 2]
    (computeQuality [[[(1 : ℝ), 0]]] [computeConcept [[(1 : ℝ), 0]] 2] 1 2)
    (Q_THRESHOLD * 10) 0 = _
  rw [c1w_concept, computeQuality_one]
  unfold computeQuality1
  rw [c1w_sum, vec_dot_two]
  norm_num

theorem c1w_assign : assignStep [[(1 : ℝ), 0]] [[(1 : ℝ), 0]] 2 = [[0]] := by
  unfold assignStep
  show (List.range 1).foldl _ (List.replicate 1 []) = _
  rw [show List.range 1 = [0] from rfl, List.foldl_cons, List.foldl_nil]
  show pushDoc [[]] (assignOne ([[(1 : ℝ), 0]].getD 0 []) [[(1 : ℝ), 0]] 2) 0 = _
  rw [List.getD_cons_zero, assignOne_single]
  rfl

theorem c1w_step : stepState [[(1 : ℝ), 0]] 2
    ⟨[[0]], [[(1 : ℝ), 0]], 1, Q_THRESHOLD * 10, 0⟩ =
    ⟨[[0]], [[(1 : ℝ), 0]], 1, 0, 1⟩ := by
  show EngineState.mk (assignStep [[(1 : ℝ), 0]] [[(1 : ℝ), 0]] 2)
      ((assignStep [[(1 : ℝ), 0]] [[(1 : ℝ), 0]] 2).map (fun p =>
        computeConcept (memberVecs [[(1 : ℝ), 0]] p) 2))
      (computeQuality
        ((assignStep [[(1 : ℝ), 0]] [[(1 : ℝ), 0]] 2).map
          (memberVecs [[(1 : ℝ), 0]]))
        ((assignStep [[(1 : ℝ), 0]] [[(1 : ℝ), 0]] 2).map (fun p =>
          computeConcept (memberVecs [[(1 : ℝ), 0]] p) 2))
        (assignStep [[(1 : ℝ), 0]] [[(1 : ℝ), 0]] 2).length 2)
      (computeQuality
        ((assignStep [[(1 : ℝ), 0]] [[(1 : ℝ), 0]] 2).map
          (memberVecs [[(1 : ℝ), 0]]))
        ((assignStep [[(1 : ℝ), 0]] [[(1 : ℝ), 0]] 2).map (fun p =>
          computeConcept (memberVecs [[(1 : ℝ), 0]] p) 2))
        (assignStep [[(1 : ℝ), 0]] [[(1 : ℝ), 0]] 2).length 2 - 1) (0 + 1) = _
  rw [c1w_assign]
  show EngineState.mk [[0]] [computeConcept [[(1 : ℝ), 0]] 2]
    (computeQuality [[[(1 : ℝ), 0]]] [computeConcept [[(1 : ℝ), 0]] 2] 1 2)
    (computeQuality [[[(1 : ℝ), 0]]] [computeConcept [[(1 : ℝ), 0]] 2] 1 2 - 1)
    1 = _
  rw [c1w_concept, computeQuality_one]
  unfold computeQuality1
  rw [c1w_sum, vec_dot_two]
  norm_num

theorem c1w_trace : runSPKMeansTrace [[(1 : ℝ), 0]] 1 1 2 2 =
    some ⟨[[0]], [[(1 : ℝ), 0]], 1, 0, 1⟩ := by
  unfold runSPKMeansTrace
  rw [c1w_txn, c1w_init, show (2 : ℕ) = 1 + 1 from rfl, loopGo_succ,
    if_pos (show (⟨[[0]], [[(1 : ℝ), 0]], 1, Q_THRESHOLD * 10, 0⟩ :
      EngineState).dQ > Q_THRESHOLD by
        show Q_THRESHOLD * 10 > Q_THRESHOLD
        norm_num [Q_THRESHOLD]),
    c1w_step, loopGo_succ,
    if_neg (show ¬ ((⟨[[0]], [[(1 : ℝ), 0]], 1, 0, 1⟩ :
      EngineState).dQ > Q_THRESHOLD) by
        show ¬ ((0 : ℝ) > Q_THRESHOLD)
        norm_num [Q_THRESHOLD])]

/-- Witness for C1: the run on the single document `[1,0]` with `k = 1`
terminates, and the theorem's conclusions hold for it. -/
theorem claim_C1_witness :
    runSPKMeansTrace [[(1 : ℝ), 0]] 1 1 2 2 =
      some ⟨[[0]], [[(1 : ℝ), 0]], 1, 0, 1⟩ ∧
    (∃ m, 1 ≤ m ∧ m ≤ 2 ∧
      (⟨[[0]], [[(1 : ℝ), 0]], 1, 0, 1⟩ : EngineState) =
        (stepState (txnScheme [[(1 : ℝ), 0]] 1 2) 2)^[m]
          (initState [[(1 : ℝ), 0]] 1 1 2) ∧
      (⟨[[0]], [[(1 : ℝ), 0]], 1, 0, 1⟩ : EngineState).iterations = m ∧
      (⟨[[0]], [[(1 : ℝ), 0]], 1, 0, 1⟩ : EngineState).dQ ≤ Q_THRESHOLD ∧
      ∀ m' < m, ((stepState (txnScheme [[(1 : ℝ), 0]] 1 2) 2)^[m']
        (initState [[(1 : ℝ), 0]] 1 1 2)).dQ > Q_THRESHOLD) :=
  ⟨c1w_trace,
    claim_C1_loop_runs_to_first_convergence [[(1 : ℝ), 0]] 1 1 2 2 _ c1w_trace⟩

/-- Witness for C2 at the first document of a concrete two-concept setup. -/
theorem claim_C2_witness :
    (([[(0 : ℝ), 1], [(1 : ℝ), 0]] : List (List ℝ)) ≠ [] ∧ 0 < 1) ∧
    (assignOne ([[(1 : ℝ), 0]].getD 0 []) [[(0 : ℝ), 1], [(1 : ℝ), 0]] 2 <
      ([[(0 : ℝ), 1], [(1 : ℝ), 0]] : List (List ℝ)).length ∧
    0 ∈ (assignStep [[(1 : ℝ), 0]] [[(0 : ℝ), 1], [(1 : ℝ), 0]] 2).getD
      (assignOne ([[(1 : ℝ), 0]].getD 0 []) [[(0 : ℝ), 1], [(1 : ℝ), 0]] 2) [] ∧
    (∀ j < ([[(0 : ℝ), 1], [(1 : ℝ), 0]] : List (List ℝ)).length,
      cosineSimilarity ([[(1 : ℝ), 0]].getD 0 [])
        ([[(0 : ℝ), 1], [(1 : ℝ), 0]].getD j []) 2 ≤
        cosineSimilarity ([[(1 : ℝ), 0]].getD 0 [])
          ([[(0 : ℝ), 1], [(1 : ℝ), 0]].getD
            (assignOne ([[(1 : ℝ), 0]].getD 0 [])
              [[(0 : ℝ), 1], [(1 : ℝ), 0]] 2) []) 2) ∧
    (∀ j < assignOne ([[(1 : ℝ), 0]].getD 0 [])
        [[(0 : ℝ), 1], [(1 : ℝ), 0]] 2,
      cosineSimilarity ([[(1 : ℝ), 0]].getD 0 [])
        ([[(0 : ℝ), 1], [(1 : ℝ), 0]].getD j []) 2 <
        cosineSimilarity ([[(1 : ℝ), 0]].getD 0 [])
          ([[(0 : ℝ), 1], [(1 : ℝ), 0]].getD
            (assignOne ([[(1 : ℝ), 0]].getD 0 [])
              [[(0 : ℝ), 1], [(1 : ℝ), 0]] 2) []) 2)) :=
  ⟨⟨by simp, by norm_num⟩,
    claim_C2_assignment_argmax [[(1 : ℝ), 0]] [[(0 : ℝ), 1], [(1 : ℝ), 0]] 2
      (by simp) 0 (by norm_num)⟩

/-- Witness for C3 on the one-member partition `[[3,4]]`. -/
theorem claim_C3_witness :
    (0 < 2 ∧ vec_sum [[(3 : ℝ), 4]] 2 ≠ List.replicate 2 0) ∧
    (computeConcept [[(3 : ℝ), 4]] 2 =
      vec_normalize
        (vec_multiply (vec_sum [[(3 : ℝ), 4]] 2) 2 (1 / ((2 : ℕ) : ℝ))) 2 ∧
    vec_norm (computeConcept [[(3 : ℝ), 4]] 2) 2 = 1) := by
  have hsum : vec_sum [[(3 : ℝ), 4]] 2 = [(3 : ℝ), 4] := by
    rw [vec_sum_one]
    norm_num
  have hs : vec_sum [[(3 : ℝ), 4]] 2 ≠ List.replicate 2 0 :=
    vec_sum_ne_zero_two hsum (by norm_num)
  exact ⟨⟨by norm_num, hs⟩,
    claim_C3_concept_unit_norm [[(3 : ℝ), 4]] 2 (by norm_num) hs⟩

/-- Witness for C5 at `k = 2`, `dc = 3`, after one iteration. -/
theorem claim_C5_witness :
    ((1 : ℕ) ≤ 2 ∧ (2 : ℕ) ≤ 3) ∧
    (((stepState (txnScheme [] 3 2) 2)^[1]
      (initState [] 2 3 2)).partitions.length = 2 ∧
    (∀ i, i < 3 →
      ((stepState (txnScheme [] 3 2) 2)^[1]
        (initState [] 2 3 2)).partitions.flatten.count i = 1) ∧
    (∀ i, i ∈ ((stepState (txnScheme [] 3 2) 2)^[1]
        (initState [] 2 3 2)).partitions.flatten → i < 3) ∧
    (((stepState (txnScheme [] 3 2) 2)^[1]
      (initState [] 2 3 2)).partitions.map List.length).sum = 3) :=
  ⟨⟨by norm_num, by norm_num⟩,
    claim_C5_partition_invariant [] 2 3 2 (by norm_num) (by norm_num) 1⟩

/-- Witness for C7 on concrete unit vectors. -/
theorem claim_C7_witness :
    ((∀ v ∈ ([[(1 : ℝ), 0]] : List (List ℝ)), vec_norm v 2 = 1) ∧
     (∀ c ∈ ([[(0 : ℝ), 1], [(3 / 5 : ℝ), 4 / 5]] : List (List ℝ)),
       vec_norm c 2 = 1)) ∧
    ((∀ v ∈ ([[(1 : ℝ), 0]] : List (List ℝ)),
      ∀ c ∈ ([[(0 : ℝ), 1], [(3 / 5 : ℝ), 4 / 5]] : List (List ℝ)),
        cosineSimilarity v c 2 = vec_dot v c 2) ∧
    dotAssignStep [[(1 : ℝ), 0]] [[(0 : ℝ), 1], [(3 / 5 : ℝ), 4 / 5]] 2 =
      assignStep [[(1 : ℝ), 0]] [[(0 : ℝ), 1], [(3 / 5 : ℝ), 4 / 5]] 2) := by
  have hdocs : ∀ v ∈ ([[(1 : ℝ), 0]] : List (List ℝ)), vec_norm v 2 = 1 := by
    intro v hv
    rw [List.mem_singleton] at hv
    rw [hv]
    exact vec_norm_unit_two 1 0 (by norm_num)
  have hcs : ∀ c ∈ ([[(0 : ℝ), 1], [(3 / 5 : ℝ), 4 / 5]] : List (List ℝ)),
      vec_norm c 2 = 1 := by
    intro c hc
    rcases List.mem_cons.1 hc with h | h
    · rw [h]
      exact vec_norm_unit_two 0 1 (by norm_num)
    · rw [List.mem_singleton] at h
      rw [h]
      exact vec_norm_unit_two (3 / 5) (4 / 5) (by norm_num)
  exact ⟨⟨hdocs, hcs⟩,
    claim_C7_cosine_is_dot_on_unit_vectors [[(1 : ℝ), 0]]
      [[(0 : ℝ), 1], [(3 / 5 : ℝ), 4 / 5]] 2 hdocs hcs⟩

theorem c6w_partitions : ∀ m ≤ 1,
    ((stepState (txnScheme [[(1 : ℝ), 0]] 1 2) 2)^[m]
      (initState [[(1 : ℝ), 0]] 1 1 2)).partitions = [[0]] := by
  intro m hm
  interval_cases m
  · rw [Function.iterate_zero_apply, c1w_init]
  · rw [Function.iterate_one, c1w_txn, c1w_init, c1w_step]

/-- Witness for C6 on the single-document run. -/
theorem claim_C6_witness :
    ((0 : ℕ) < 2 ∧ (1 : ℕ) ≤ 1 ∧
     (∀ i < 1, vec_norm ([[(1 : ℝ), 0]].getD i []) 2 ≠ 0) ∧
     (∀ m ≤ 1, ∀ j < 1,
       vec_sum (memberVecs (txnScheme [[(1 : ℝ), 0]] 1 2)
         (((stepState (txnScheme [[(1 : ℝ), 0]] 1 2) 2)^[m]
           (initState [[(1 : ℝ), 0]] 1 1 2)).partitions.getD j [])) 2 ≠
         List.replicate 2 0)) ∧
    (∀ m < 1,
      ((stepState (txnScheme [[(1 : ℝ), 0]] 1 2) 2)^[m]
        (initState [[(1 : ℝ), 0]] 1 1 2)).quality ≤
      ((stepState (txnScheme [[(1 : ℝ), 0]] 1 2) 2)^[m + 1]
        (initState [[(1 : ℝ), 0]] 1 1 2)).quality ∧
      0 ≤ ((stepState (txnScheme [[(1 : ℝ), 0]] 1 2) 2)^[m + 1]
        (initState [[(1 : ℝ), 0]] 1 1 2)).dQ) := by
  have hnz : ∀ i < 1, vec_norm ([[(1 : ℝ), 0]].getD i []) 2 ≠ 0 := by
    intro i hi
    interval_cases i
    rw [List.getD_cons_zero, vec_norm_unit_two 1 0 (by norm_num)]
    norm_num
  have hnd : ∀ m ≤ 1, ∀ j < 1,
      vec_sum (memberVecs (txnScheme [[(1 : ℝ), 0]] 1 2)
        (((stepState (txnScheme [[(1 : ℝ), 0]] 1 2) 2)^[m]
          (initState [[(1 : ℝ), 0]] 1 1 2)).partitions.getD j [])) 2 ≠
        List.replicate 2 0 := by
    intro m hm j hj
    rw [c6w_partitions m hm, c1w_txn]
    interval_cases j
    rw [List.getD_cons_zero]
    show vec_sum [[(1 : ℝ), 0]] 2 ≠ _
    exact vec_sum_ne_zero_two c1w_sum (by norm_num)
  exact ⟨⟨by norm_num, by norm_num, hnz, hnd⟩,
    claim_C6_quality_monotone [[(1 : ℝ), 0]] 1 1 2 1 (by norm_num)
      (by norm_num) (by norm_num) hnz hnd⟩


theorem assignStep_eval3 (d0 d1 d2 : List ℝ) (C : List (List ℝ)) (wc : ℕ) :
    assignStep [d0, d1, d2] C wc =
      pushDoc (pushDoc (pushDoc (List.replicate C.length [])
        (assignOne d0 C wc) 0) (assignOne d1 C wc) 1) (assignOne d2 C wc) 2 :=
  rfl

theorem assignStep_eval6 (d0 d1 d2 d3 d4 d5 : List ℝ) (C : List (List ℝ))
    (wc : ℕ) :
    assignStep [d0, d1, d2, d3, d4, d5] C wc =
      pushDoc (pushDoc (pushDoc (pushDoc (pushDoc (pushDoc
        (List.replicate C.length [])
        (assignOne d0 C wc) 0) (assignOne d1 C wc) 1) (assignOne d2 C wc) 2)
        (assignOne d3 C wc) 3) (assignOne d4 C wc) 4) (assignOne d5 C wc) 5 :=
  rfl

theorem pushDoc_eval_x : pushDoc (pushDoc (pushDoc (List.replicate 2 ([] : List ℕ)) 0 0) 0 1) 1 2 = [[0, 1], [2]] := by decide

theorem vec_normalize_of_norm_one (v : List ℝ) (hlen : v.length = 2)
    (h : vec_norm v 2 = 1) : vec_normalize v 2 = v := by
  obtain ⟨a, b, rfl⟩ : ∃ a b, v = [a, b] := by
    match v, hlen with
    | [a, b], _ => exact ⟨a, b, rfl⟩
  unfold vec_normalize
  rw [h, vec_divide_two]
  norm_num

noncomputable def c10xa : List ℝ := [3 / 5, 4 / 5]

noncomputable def c10xb : List ℝ := [27573 / 50045, 41764 / 50045]

noncomputable def c10docsX : List (List ℝ) := [c10xa, c10xa, c10xb]

theorem c10_unit_a : vec_norm c10xa 2 = 1 := by
  rw [show c10xa = [(3 : ℝ) / 5, 4 / 5] from rfl]
  exact vec_norm_unit_two _ _ (by norm_num)

theorem c10_unit_b : vec_norm c10xb 2 = 1 := by
  rw [show c10xb = [(27573 : ℝ) / 50045, 41764 / 50045] from rfl]
  exact vec_norm_unit_two _ _ (by norm_num)

theorem c10x_txn : txnScheme c10docsX 3 2 = c10docsX := by
  show [vec_normalize (c10docsX.getD 0 []) 2,
    vec_normalize (c10docsX.getD 1 []) 2,
    vec_normalize (c10docsX.getD 2 []) 2] = _
  rw [show c10docsX.getD 0 [] = c10xa from rfl,
    show c10docsX.getD 1 [] = c10xa from rfl,
    show c10docsX.getD 2 [] = c10xb from rfl,
    vec_normalize_of_norm_one c10xa rfl c10_unit_a,
    vec_normalize_of_norm_one c10xb rfl c10_unit_b]
  rfl

theorem c10x_sum_a : vec_sum [c10xa] 2 = [(3 : ℝ) / 5, 4 / 5] := by
  rw [vec_sum_one]
  norm_num [c10xa]

theorem c10x_sum_ab : vec_sum [c10xa, c10xb] 2 =
    [(11520 : ℝ) / 10009, 16360 / 10009] := by
  rw [vec_sum_cons, vec_sum_one]
  norm_num [c10xa, c10xb]

theorem c10x_sum_aa : vec_sum [c10xa, c10xa] 2 = [(6 : ℝ) / 5, 8 / 5] := by
  rw [vec_sum_cons, vec_sum_one]
  norm_num [c10xa]

theorem c10x_ne_a : vec_sum [c10xa] 2 ≠ List.replicate 2 0 :=
  vec_sum_ne_zero_two c10x_sum_a (by norm_num)

theorem c10x_ne_ab : vec_sum [c10xa, c10xb] 2 ≠ List.replicate 2 0 :=
  vec_sum_ne_zero_two c10x_sum_ab (by norm_num)

theorem c10x_assign_a :
    assignOne c10xa [computeConcept [c10xa] 2,
      computeConcept [c10xa, c10xb] 2] 2 = 0 := by
  refine assignOne_pair_stays c10xa [c10xa] [c10xa, c10xb] c10_unit_a
    c10x_ne_a c10x_ne_ab ?_ ?_ ?_
  · rw [c10x_sum_a, show c10xa = [(3 : ℝ) / 5, 4 / 5] from rfl, vec_dot_two]
    norm_num
  · rw [c10x_sum_ab, show c10xa = [(3 : ℝ) / 5, 4 / 5] from rfl, vec_dot_two]
    norm_num
  · rw [c10x_sum_a, c10x_sum_ab,
      show c10xa = [(3 : ℝ) / 5, 4 / 5] from rfl]
    simp only [vec_dot_two]
    norm_num

theorem c10x_assign_b :
    assignOne c10xb [computeConcept [c10xa] 2,
      computeConcept [c10xa, c10xb] 2] 2 = 1 := by
  refine assignOne_pair_moves c10xb [c10xa] [c10xa, c10xb] c10_unit_b
    c10x_ne_a c10x_ne_ab ?_ ?_ ?_
  · rw [c10x_sum_a, show c10xb = [(27573 : ℝ) / 50045, 41764 / 50045] from rfl,
      vec_dot_two]
    norm_num
  · rw [c10x_sum_ab, show c10xb = [(27573 : ℝ) / 50045, 41764 / 50045] from rfl,
      vec_dot_two]
    norm_num
  · rw [c10x_sum_a, c10x_sum_ab,
      show c10xb = [(27573 : ℝ) / 50045, 41764 / 50045] from rfl]
    simp only [vec_dot_two]
    norm_num

theorem c10x_concept1 : computeConcept [c10xa, c10xa] 2 = [(3 : ℝ) / 5, 4 / 5] :=
  computeConcept_eval2 _ (6 / 5) (8 / 5) 1 (3 / 5) (4 / 5) c10x_sum_aa
    (by norm_num) (by norm_num) (by norm_num) (by norm_num)

theorem c10x_concept2 : computeConcept [c10xb] 2 =
    [(27573 : ℝ) / 50045, 41764 / 50045] := by
  have hsum : vec_sum [c10xb] 2 = [(27573 : ℝ) / 50045, 41764 / 50045] := by
    rw [vec_sum_one]
    norm_num [c10xb]
  exact computeConcept_eval2 _ (27573 / 50045) (41764 / 50045) (1 / 2)
    (27573 / 50045) (41764 / 50045) hsum (by norm_num) (by norm_num)
    (by norm_num) (by norm_num)

theorem initPartitions_32 : initPartitions 3 2 = [[0], [1, 2]] := by decide

theorem c10x_init : initState c10docsX 2 3 2 =
    ⟨[[0], [1, 2]],
     [computeConcept [c10xa] 2, computeConcept [c10xa, c10xb] 2],
     1 + Real.sqrt (40000 / 10009), Q_THRESHOLD * 10, 0⟩ := by
  show EngineState.mk (initPartitions 3 2)
      ((initPartitions 3 2).map (fun p =>
        computeConcept (memberVecs (txnScheme c10docsX 3 2) p) 2))
      (computeQuality
        ((initPartitions 3 2).map (memberVecs (txnScheme c10docsX 3 2)))
        ((initPartitions 3 2).map (fun p =>
          computeConcept (memberVecs (txnScheme c10docsX 3 2) p) 2)) 2 2)
      (Q_THRESHOLD * 10) 0 = _
  rw [c10x_txn, initPartitions_32]
  show EngineState.mk [[0], [1, 2]]
    [computeConcept [c10xa] 2, computeConcept [c10xa, c10xb] 2]
    (computeQuality [[c10xa], [c10xa, c10xb]]
      [computeConcept [c10xa] 2, computeConcept [c10xa, c10xb] 2] 2 2)
    (Q_THRESHOLD * 10) 0 = _
  rw [computeQuality_two,
    computeQuality1_concept [c10xa] (by norm_num),
    computeQuality1_concept [c10xa, c10xb] (by norm_num),
    c10x_sum_a, c10x_sum_ab]
  rw [vec_dot_two, vec_dot_two]
  rw [show (3 : ℝ) / 5 * (3 / 5) + 4 / 5 * (4 / 5) = 1 by norm_num,
    show (11520 : ℝ) / 10009 * (11520 / 10009) +
      16360 / 10009 * (16360 / 10009) = 40000 / 10009 by norm_num,
    Real.sqrt_one]

theorem c10x_assignStep :
    assignStep c10docsX
      [computeConcept [c10xa] 2, computeConcept [c10xa, c10xb] 2] 2 =
      [[0, 1], [2]] := by
  rw [show c10docsX = [c10xa, c10xa, c10xb] from rfl, assignStep_eval3,
    c10x_assign_a, c10x_assign_b]
  decide

theorem c10x_step : stepState c10docsX 2
    ⟨[[0], [1, 2]],
     [computeConcept [c10xa] 2, computeConcept [c10xa, c10xb] 2],
     1 + Real.sqrt (40000 / 10009), Q_THRESHOLD * 10, 0⟩ =
    ⟨[[0, 1], [2]],
     [[(3 : ℝ) / 5, 4 / 5], [(27573 : ℝ) / 50045, 41764 / 50045]],
     3, 3 - (1 + Real.sqrt (40000 / 10009)), 1⟩ := by
  show EngineState.mk
      (assignStep c10docsX
        [computeConcept [c10xa] 2, computeConcept [c10xa, c10xb] 2] 2)
      ((assignStep c10docsX
        [computeConcept [c10xa] 2, computeConcept [c10xa, c10xb] 2] 2).map
          (fun p => computeConcept (memberVecs c10docsX p) 2))
      (computeQuality
        ((assignStep c10docsX
          [computeConcept [c10xa] 2, computeConcept [c10xa, c10xb] 2] 2).map
            (memberVecs c10docsX))
        ((assignStep c10docsX
          [computeConcept [c10xa] 2, computeConcept [c10xa, c10xb] 2] 2).map
            (fun p => computeConcept (memberVecs c10docsX p) 2))
        (assignStep c10docsX
          [computeConcept [c10xa] 2, computeConcept [c10xa, c10xb] 2] 2).length
        2)
      (computeQuality
        ((assignStep c10docsX
          [computeConcept [c10xa] 2, computeConcept [c10xa, c10xb] 2] 2).map
            (memberVecs c10docsX))
        ((assignStep c10docsX
          [computeConcept [c10xa] 2, computeConcept [c10xa, c10xb] 2] 2).map
            (fun p => computeConcept (memberVecs c10docsX p) 2))
        (assignStep c10docsX
          [computeConcept [c10xa] 2, computeConcept [c10xa, c10xb] 2] 2).length
        2 - (1 + Real.sqrt (40000 / 10009))) (0 + 1) = _
  rw [c10x_assignStep]
  show EngineState.mk [[0, 1], [2]]
    [computeConcept [c10xa, c10xa] 2, computeConcept [c10xb] 2]
    (computeQuality [[c10xa, c10xa], [c10xb]]
      [computeConcept [c10xa, c10xa] 2, computeConcept [c10xb] 2] 2 2)
    (computeQuality [[c10xa, c10xa], [c10xb]]
      [computeConcept [c10xa, c10xa] 2, computeConcept [c10xb] 2] 2 2 -
      (1 + Real.sqrt (40000 / 10009))) 1 = _
  rw [c10x_concept1, c10x_concept2, computeQuality_two]
  unfold computeQuality1
  rw [c10x_sum_aa, show vec_sum [c10xb] 2 =
    [(27573 : ℝ) / 50045, 41764 / 50045] by rw [vec_sum_one]; norm_num [c10xb]]
  rw [vec_dot_two, vec_dot_two]
  norm_num

theorem c10x_dQ_le : ¬ ((3 : ℝ) - (1 + Real.sqrt (40000 / 10009)) > Q_THRESHOLD) := by
  have h : (1.999 : ℝ) ≤ Real.sqrt (40000 / 10009) := by
    rw [Real.le_sqrt (by norm_num) (by norm_num)]
    norm_num
  rw [not_lt]
  unfold Q_THRESHOLD
  linarith

theorem c10x_trace : runSPKMeansTrace c10docsX 2 3 2 5 =
    some ⟨[[0, 1], [2]],
      [[(3 : ℝ) / 5, 4 / 5], [(27573 : ℝ) / 50045, 41764 / 50045]],
      3, 3 - (1 + Real.sqrt (40000 / 10009)), 1⟩ := by
  unfold runSPKMeansTrace
  rw [c10x_txn, c10x_init, show (5 : ℕ) = 4 + 1 from rfl, loopGo_succ,
    if_pos (show (⟨[[0], [1, 2]],
      [computeConcept [c10xa] 2, computeConcept [c10xa, c10xb] 2],
      1 + Real.sqrt (40000 / 10009), Q_THRESHOLD * 10, 0⟩ :
        EngineState).dQ > Q_THRESHOLD by
      show Q_THRESHOLD * 10 > Q_THRESHOLD
      norm_num [Q_THRESHOLD])]
  rw [c10x_step, show (4 : ℕ) = 3 + 1 from rfl, loopGo_succ,
    if_neg (show ¬ ((⟨[[0, 1], [2]],
      [[(3 : ℝ) / 5, 4 / 5], [(27573 : ℝ) / 50045, 41764 / 50045]],
      3, 3 - (1 + Real.sqrt (40000 / 10009)), 1⟩ :
        EngineState).dQ > Q_THRESHOLD) from c10x_dQ_le)]

theorem assignOne_unit_stays (dv c0 c1 : List ℝ) (wc : ℕ)
    (hd : vec_norm dv wc = 1) (h0 : vec_norm c0 wc = 1)
    (h1 : vec_norm c1 wc = 1)
    (hdec : vec_dot dv c1 wc ≤ vec_dot dv c0 wc) :
    assignOne dv [c0, c1] wc = 0 := by
  rw [assignOne_pair, if_neg]
  rw [cosineSimilarity_unit hd h0, cosineSimilarity_unit hd h1, gt_iff_lt,
    not_lt]
  exact hdec

theorem assignOne_unit_moves (dv c0 c1 : List ℝ) (wc : ℕ)
    (hd : vec_norm dv wc = 1) (h0 : vec_norm c0 wc = 1)
    (h1 : vec_norm c1 wc = 1)
    (hdec : vec_dot dv c0 wc < vec_dot dv c1 wc) :
    assignOne dv [c0, c1] wc = 1 := by
  rw [assignOne_pair, if_pos]
  rw [cosineSimilarity_unit hd h0, cosineSimilarity_unit hd h1]
  exact hdec

noncomputable def c10y0 : List ℝ := [737973 / 1250045, 1008964 / 1250045]

noncomputable def c10y1 : List ℝ := [761973 / 1250045, 990964 / 1250045]

noncomputable def c10docsY : List (List ℝ) := [c10y0, c10y1, c10xb]

theorem c10y_unit_0 : vec_norm c10y0 2 = 1 := by
  rw [show c10y0 = [(737973 : ℝ) / 1250045, 1008964 / 1250045] from rfl]
  exact vec_norm_unit_two _ _ (by norm_num)

theorem c10y_unit_1 : vec_norm c10y1 2 = 1 := by
  rw [show c10y1 = [(761973 : ℝ) / 1250045, 990964 / 1250045] from rfl]
  exact vec_norm_unit_two _ _ (by norm_num)

theorem c10y_txn : txnScheme c10docsY 3 2 = c10docsY := by
  show [vec_normalize (c10docsY.getD 0 []) 2,
    vec_normalize (c10docsY.getD 1 []) 2,
    vec_normalize (c10docsY.getD 2 []) 2] = _
  rw [show c10docsY.getD 0 [] = c10y0 from rfl,
    show c10docsY.getD 1 [] = c10y1 from rfl,
    show c10docsY.getD 2 [] = c10xb from rfl,
    vec_normalize_of_norm_one c10y0 rfl c10y_unit_0,
    vec_normalize_of_norm_one c10y1 rfl c10y_unit_1,
    vec_normalize_of_norm_one c10xb rfl c10_unit_b]
  rfl

theorem c10y_sum_0 : vec_sum [c10y0] 2 =
    [(737973 : ℝ) / 1250045, 1008964 / 1250045] := by
  rw [vec_sum_one]
  norm_num [c10y0]

theorem c10y_sum_12 : vec_sum [c10y1, c10xb] 2 =
    [(14520085914 : ℝ) / 12511700405, 20359934552 / 12511700405] := by
  rw [vec_sum_cons, vec_sum_one]
  norm_num [c10y1, c10xb]

theorem c10y_sum_01 : vec_sum [c10y0, c10y1] 2 =
    [(1499946 : ℝ) / 1250045, 1999928 / 1250045] := by
  rw [vec_sum_cons, vec_sum_one]
  norm_num [c10y0, c10y1]

theorem c10y_ne_0 : vec_sum [c10y0] 2 ≠ List.replicate 2 0 :=
  vec_sum_ne_zero_two c10y_sum_0 (by norm_num)

theorem c10y_ne_12 : vec_sum [c10y1, c10xb] 2 ≠ List.replicate 2 0 :=
  vec_sum_ne_zero_two c10y_sum_12 (by norm_num)

theorem c10y_assign_0 :
    assignOne c10y0 [computeConcept [c10y0] 2,
      computeConcept [c10y1, c10xb] 2] 2 = 0 := by
  refine assignOne_pair_stays c10y0 [c10y0] [c10y1, c10xb] c10y_unit_0
    c10y_ne_0 c10y_ne_12 ?_ ?_ ?_
  · rw [c10y_sum_0,
      show c10y0 = [(737973 : ℝ) / 1250045, 1008964 / 1250045] from rfl,
      vec_dot_two]
    norm_num
  · rw [c10y_sum_12,
      show c10y0 = [(737973 : ℝ) / 1250045, 1008964 / 1250045] from rfl,
      vec_dot_two]
    norm_num
  · rw [c10y_sum_0, c10y_sum_12,
      show c10y0 = [(737973 : ℝ) / 1250045, 1008964 / 1250045] from rfl]
    simp only [vec_dot_two]
    norm_num

theorem c10y_assign_1 :
    assignOne c10y1 [computeConcept [c10y0] 2,
      computeConcept [c10y1, c10xb] 2] 2 = 0 := by
  refine assignOne_pair_stays c10y1 [c10y0] [c10y1, c10xb] c10y_unit_1
    c10y_ne_0 c10y_ne_12 ?_ ?_ ?_
  · rw [c10y_sum_0,
      show c10y1 = [(761973 : ℝ) / 1250045, 990964 / 1250045] from rfl,
      vec_dot_two]
    norm_num
  · rw [c10y_sum_12,
      show c10y1 = [(761973 : ℝ) / 1250045, 990964 / 1250045] from rfl,
      vec_dot_two]
    norm_num
  · rw [c10y_sum_0, c10y_sum_12,
      show c10y1 = [(761973 : ℝ) / 1250045, 990964 / 1250045] from rfl]
    simp only [vec_dot_two]
    norm_num

theorem c10y_assign_2 :
    assignOne c10xb [computeConcept [c10y0] 2,
      computeConcept [c10y1, c10xb] 2] 2 = 1 := by
  refine assignOne_pair_moves c10xb [c10y0] [c10y1, c10xb] c10_unit_b
    c10y_ne_0 c10y_ne_12 ?_ ?_ ?_
  · rw [c10y_sum_0,
      show c10xb = [(27573 : ℝ) / 50045, 41764 / 50045] from rfl,
      vec_dot_two]
    norm_num
  · rw [c10y_sum_12,
      show c10xb = [(27573 : ℝ) / 50045, 41764 / 50045] from rfl,
      vec_dot_two]
    norm_num
  · rw [c10y_sum_0, c10y_sum_12,
      show c10xb = [(27573 : ℝ) / 50045, 41764 / 50045] from rfl]
    simp only [vec_dot_two]
    norm_num

theorem c10y_concept1 : computeConcept [c10y0, c10y1] 2 =
    [(3 : ℝ) / 5, 4 / 5] :=
  computeConcept_eval2 _ (1499946 / 1250045) (1999928 / 1250045)
    (1249955 / 1250045) (3 / 5) (4 / 5) c10y_sum_01 (by norm_num)
    (by norm_num) (by norm_num) (by norm_num)

theorem c10y_init : initState c10docsY 2 3 2 =
    ⟨[[0], [1, 2]],
     [computeConcept [c10y0] 2, computeConcept [c10y1, c10xb] 2],
     1 + Real.sqrt (9996400324 / 2502340081), Q_THRESHOLD * 10, 0⟩ := by
  show EngineState.mk (initPartitions 3 2)
      ((initPartitions 3 2).map (fun p =>
        computeConcept (memberVecs (txnScheme c10docsY 3 2) p) 2))
      (computeQuality
        ((initPartitions 3 2).map (memberVecs (txnScheme c10docsY 3 2)))
        ((initPartitions 3 2).map (fun p =>
          computeConcept (memberVecs (txnScheme c10docsY 3 2) p) 2)) 2 2)
      (Q_THRESHOLD * 10) 0 = _
  rw [c10y_txn, initPartitions_32]
  show EngineState.mk [[0], [1, 2]]
    [computeConcept [c10y0] 2, computeConcept [c10y1, c10xb] 2]
    (computeQuality [[c10y0], [c10y1, c10xb]]
      [computeConcept [c10y0] 2, computeConcept [c10y1, c10xb] 2] 2 2)
    (Q_THRESHOLD * 10) 0 = _
  rw [computeQuality_two,
    computeQuality1_concept [c10y0] (by norm_num),
    computeQuality1_concept [c10y1, c10xb] (by norm_num),
    c10y_sum_0, c10y_sum_12]
  rw [vec_dot_two, vec_dot_two]
  rw [show (737973 : ℝ) / 1250045 * (737973 / 1250045) +
      1008964 / 1250045 * (1008964 / 1250045) = 1 by norm_num,
    show (14520085914 : ℝ) / 12511700405 * (14520085914 / 12511700405) +
      20359934552 / 12511700405 * (20359934552 / 12511700405) =
      9996400324 / 2502340081 by norm_num,
    Real.sqrt_one]

theorem c10y_assignStep :
    assignStep c10docsY
      [computeConcept [c10y0] 2, computeConcept [c10y1, c10xb] 2] 2 =
      [[0, 1], [2]] := by
  rw [show c10docsY = [c10y0, c10y1, c10xb] from rfl, assignStep_eval3,
    c10y_assign_0, c10y_assign_1, c10y_assign_2]
  decide

theorem c10y_step : stepState c10docsY 2
    ⟨[[0], [1, 2]],
     [computeConcept [c10y0] 2, computeConcept [c10y1, c10xb] 2],
     1 + Real.sqrt (9996400324 / 2502340081), Q_THRESHOLD * 10, 0⟩ =
    ⟨[[0, 1], [2]],
     [[(3 : ℝ) / 5, 4 / 5], [(27573 : ℝ) / 50045, 41764 / 50045]],
     749991 / 250009,
     749991 / 250009 - (1 + Real.sqrt (9996400324 / 2502340081)), 1⟩ := by
  show EngineState.mk
      (assignStep c10docsY
        [computeConcept [c10y0] 2, computeConcept [c10y1, c10xb] 2] 2)
      ((assignStep c10docsY
        [computeConcept [c10y0] 2, computeConcept [c10y1, c10xb] 2] 2).map
          (fun p => computeConcept (memberVecs c10docsY p) 2))
      (computeQuality
        ((assignStep c10docsY
          [computeConcept [c10y0] 2, computeConcept [c10y1, c10xb] 2] 2).map
            (memberVecs c10docsY))
        ((assignStep c10docsY
          [computeConcept [c10y0] 2, computeConcept [c10y1, c10xb] 2] 2).map
            (fun p => computeConcept (memberVecs c10docsY p) 2))
        (assignStep c10docsY
          [computeConcept [c10y0] 2, computeConcept [c10y1, c10xb] 2] 2).length
        2)
      (computeQuality
        ((assignStep c10docsY
          [computeConcept [c10y0] 2, computeConcept [c10y1, c10xb] 2] 2).map
            (memberVecs c10docsY))
        ((assignStep c10docsY
          [computeConcept [c10y0] 2, computeConcept [c10y1, c10xb] 2] 2).map
            (fun p => computeConcept (memberVecs c10docsY p) 2))
        (assignStep c10docsY
          [computeConcept [c10y0] 2, computeConcept [c10y1, c10xb] 2] 2).length
        2 - (1 + Real.sqrt (9996400324 / 2502340081))) (0 + 1) = _
  rw [c10y_assignStep]
  show EngineState.mk [[0, 1], [2]]
    [computeConcept [c10y0, c10y1] 2, computeConcept [c10xb] 2]
    (computeQuality [[c10y0, c10y1], [c10xb]]
      [computeConcept [c10y0, c10y1] 2, computeConcept [c10xb] 2] 2 2)
    (computeQuality [[c10y0, c10y1], [c10xb]]
      [computeConcept [c10y0, c10y1] 2, computeConcept [c10xb] 2] 2 2 -
      (1 + Real.sqrt (9996400324 / 2502340081))) 1 = _
  rw [c10y_concept1, c10x_concept2, computeQuality_two]
  unfold computeQuality1
  rw [c10y_sum_01, show vec_sum [c10xb] 2 =
    [(27573 : ℝ) / 50045, 41764 / 50045] by rw [vec_sum_one]; norm_num [c10xb]]
  rw [vec_dot_two, vec_dot_two]
  norm_num

theorem c10y_dQ_gt :
    ((749991 : ℝ) / 250009 -
      (1 + Real.sqrt (9996400324 / 2502340081))) > Q_THRESHOLD := by
  have h : Real.sqrt (9996400324 / 2502340081) <
      (499731991 : ℝ) / 250009000 := by
    rw [Real.sqrt_lt' (by norm_num)]
    norm_num
  unfold Q_THRESHOLD
  linarith

theorem c10y2_assign_0 :
    assignOne c10y0
      [[(3 : ℝ) / 5, 4 / 5], [(27573 : ℝ) / 50045, 41764 / 50045]] 2 = 0 := by
  refine assignOne_unit_stays c10y0 _ _ 2 c10y_unit_0
    (vec_norm_unit_two _ _ (by norm_num))
    (vec_norm_unit_two _ _ (by norm_num)) ?_
  rw [show c10y0 = [(737973 : ℝ) / 1250045, 1008964 / 1250045] from rfl]
  simp only [vec_dot_two]
  norm_num

theorem c10y2_assign_1 :
    assignOne c10y1
      [[(3 : ℝ) / 5, 4 / 5], [(27573 : ℝ) / 50045, 41764 / 50045]] 2 = 0 := by
  refine assignOne_unit_stays c10y1 _ _ 2 c10y_unit_1
    (vec_norm_unit_two _ _ (by norm_num))
    (vec_norm_unit_two _ _ (by norm_num)) ?_
  rw [show c10y1 = [(761973 : ℝ) / 1250045, 990964 / 1250045] from rfl]
  simp only [vec_dot_two]
  norm_num

theorem c10y2_assign_2 :
    assignOne c10xb
      [[(3 : ℝ) / 5, 4 / 5], [(27573 : ℝ) / 50045, 41764 / 50045]] 2 = 1 := by
  refine assignOne_unit_moves c10xb _ _ 2 c10_unit_b
    (vec_norm_unit_two _ _ (by norm_num))
    (vec_norm_unit_two _ _ (by norm_num)) ?_
  rw [show c10xb = [(27573 : ℝ) / 50045, 41764 / 50045] from rfl]
  simp only [vec_dot_two]
  norm_num

theorem c10y_assignStep2 :
    assignStep c10docsY
      [[(3 : ℝ) / 5, 4 / 5], [(27573 : ℝ) / 50045, 41764 / 50045]] 2 =
      [[0, 1], [2]] := by
  rw [show c10docsY = [c10y0, c10y1, c10xb] from rfl, assignStep_eval3,
    c10y2_assign_0, c10y2_assign_1, c10y2_assign_2]
  decide

theorem c10y_step2 : stepState c10docsY 2
    ⟨[[0, 1], [2]],
     [[(3 : ℝ) / 5, 4 / 5], [(27573 : ℝ) / 50045, 41764 / 50045]],
     749991 / 250009,
     749991 / 250009 - (1 + Real.sqrt (9996400324 / 2502340081)), 1⟩ =
    ⟨[[0, 1], [2]],
     [[(3 : ℝ) / 5, 4 / 5], [(27573 : ℝ) / 50045, 41764 / 50045]],
     749991 / 250009, 0, 2⟩ := by
  show EngineState.mk
      (assignStep c10docsY
        [[(3 : ℝ) / 5, 4 / 5], [(27573 : ℝ) / 50045, 41764 / 50045]] 2)
      ((assignStep c10docsY
        [[(3 : ℝ) / 5, 4 / 5], [(27573 : ℝ) / 50045, 41764 / 50045]] 2).map
          (fun p => computeConcept (memberVecs c10docsY p) 2))
      (computeQuality
        ((assignStep c10docsY
          [[(3 : ℝ) / 5, 4 / 5], [(27573 : ℝ) / 50045, 41764 / 50045]] 2).map
            (memberVecs c10docsY))
        ((assignStep c10docsY
          [[(3 : ℝ) / 5, 4 / 5], [(27573 : ℝ) / 50045, 41764 / 50045]] 2).map
            (fun p => computeConcept (memberVecs c10docsY p) 2))
        (assignStep c10docsY
          [[(3 : ℝ) / 5, 4 / 5],
           [(27573 : ℝ) / 50045, 41764 / 50045]] 2).length 2)
      (computeQuality
        ((assignStep c10docsY
          [[(3 : ℝ) / 5, 4 / 5], [(27573 : ℝ) / 50045, 41764 / 50045]] 2).map
            (memberVecs c10docsY))
        ((assignStep c10docsY
          [[(3 : ℝ) / 5, 4 / 5], [(27573 : ℝ) / 50045, 41764 / 50045]] 2).map
            (fun p => computeConcept (memberVecs c10docsY p) 2))
        (assignStep c10docsY
          [[(3 : ℝ) / 5, 4 / 5],
           [(27573 : ℝ) / 50045, 41764 / 50045]] 2).length 2 -
        (749991 / 250009)) (1 + 1) = _
  rw [c10y_assignStep2]
  show EngineState.mk [[0, 1], [2]]
    [computeConcept [c10y0, c10y1] 2, computeConcept [c10xb] 2]
    (computeQuality [[c10y0, c10y1], [c10xb]]
      [computeConcept [c10y0, c10y1] 2, computeConcept [c10xb] 2] 2 2)
    (computeQuality [[c10y0, c10y1], [c10xb]]
      [computeConcept [c10y0, c10y1] 2, computeConcept [c10xb] 2] 2 2 -
      (749991 / 250009)) (1 + 1) = _
  rw [c10y_concept1, c10x_concept2, computeQuality_two]
  unfold computeQuality1
  rw [c10y_sum_01, show vec_sum [c10xb] 2 =
    [(27573 : ℝ) / 50045, 41764 / 50045] by rw [vec_sum_one]; norm_num [c10xb]]
  rw [vec_dot_two, vec_dot_two]
  norm_num

theorem c10y_trace : runSPKMeansTrace c10docsY 2 3 2 5 =
    some ⟨[[0, 1], [2]],
      [[(3 : ℝ) / 5, 4 / 5], [(27573 : ℝ) / 50045, 41764 / 50045]],
      749991 / 250009, 0, 2⟩ := by
  unfold runSPKMeansTrace
  rw [c10y_txn, c10y_init, show (5 : ℕ) = 4 + 1 from rfl, loopGo_succ,
    if_pos (show (⟨[[0], [1, 2]],
      [computeConcept [c10y0] 2, computeConcept [c10y1, c10xb] 2],
      1 + Real.sqrt (9996400324 / 2502340081), Q_THRESHOLD * 10, 0⟩ :
        EngineState).dQ > Q_THRESHOLD by
      show Q_THRESHOLD * 10 > Q_THRESHOLD
      norm_num [Q_THRESHOLD])]
  rw [c10y_step, show (4 : ℕ) = 3 + 1 from rfl, loopGo_succ,
    if_pos (show (⟨[[0, 1], [2]],
      [[(3 : ℝ) / 5, 4 / 5], [(27573 : ℝ) / 50045, 41764 / 50045]],
      749991 / 250009,
      749991 / 250009 - (1 + Real.sqrt (9996400324 / 2502340081)), 1⟩ :
        EngineState).dQ > Q_THRESHOLD from c10y_dQ_gt)]
  rw [c10y_step2,
    show loopGo c10docsY 2 3 = loopGo c10docsY 2 (2 + 1) from rfl, loopGo_succ,
    if_neg (show ¬ ((⟨[[0, 1], [2]],
      [[(3 : ℝ) / 5, 4 / 5], [(27573 : ℝ) / 50045, 41764 / 50045]],
      749991 / 250009, 0, 2⟩ : EngineState).dQ > Q_THRESHOLD) by
      show ¬ ((0 : ℝ) > Q_THRESHOLD)
      norm_num [Q_THRESHOLD])]

/-- C10: the spec says the engine returns both the final Cluster State and
the number of iterations performed.  Counterexample: the returned
`ClusterData` does not carry the iteration count.  The two inputs
`c10docsX` and `c10docsY` are different, their runs take 1 and 2 loop
iterations respectively, yet `runSPKMeans` returns the same value for
both, so no iteration count is recoverable from the returned value. -/
theorem claim_C10_counterexample :
    runSPKMeans c10docsX 2 3 2 5 = runSPKMeans c10docsY 2 3 2 5 ∧
    (runSPKMeansTrace c10docsX 2 3 2 5).map EngineState.iterations =
      some 1 ∧
    (runSPKMeansTrace c10docsY 2 3 2 5).map EngineState.iterations =
      some 2 ∧
    c10docsX ≠ c10docsY := by
  refine ⟨?_, ?_, ?_, ?_⟩
  · unfold runSPKMeans
    rw [c10x_trace, c10y_trace]
    rfl
  · rw [c10x_trace]
    rfl
  · rw [c10y_trace]
    rfl
  · intro h
    have h0 : ((3 : ℝ) / 5) = 737973 / 1250045 := by
      have hc := congrArg (fun l => (l.getD 0 ([] : List ℝ)).getD 0 (0 : ℝ)) h
      simpa [c10docsX, c10docsY, c10xa, c10y0] using hc
    norm_num at h0

/-- C10 (amended): the engine returns only the final Cluster State — the
partitions of document references, their sizes and the concept vectors,
packed in `ClusterData`; the loop's iteration count is printed to standard
output but is not part of the returned value. -/
theorem claim_C10_returns_final_state_without_iterations
    (doc_matrix : List (List ℝ)) (k dc wc fuel : ℕ) (s : EngineState)
    (h : runSPKMeansTrace doc_matrix k dc wc fuel = some s) :
    runSPKMeans doc_matrix k dc wc fuel =
      some ⟨k, dc, wc, s.partitions, s.partitions.map List.length,
        s.concepts⟩ := by
  unfold runSPKMeans
  rw [h]
  rfl

/-- Witness for C10 (amended) at the concrete run on `c10docsX`. -/
theorem claim_C10_witness :
    runSPKMeans c10docsX 2 3 2 5 =
      some ⟨2, 3, 2, [[0, 1], [2]], [2, 1],
        [[(3 : ℝ) / 5, 4 / 5], [(27573 : ℝ) / 50045, 41764 / 50045]]⟩ :=
  claim_C10_returns_final_state_without_iterations c10docsX 2 3 2 5 _
    c10x_trace

noncomputable def c8d0 : List ℝ := [1, 0]

noncomputable def c8d3 : List ℝ := [2915 / 2917, 108 / 2917]

noncomputable def c8d4 : List ℝ := [1012 / 1013, 45 / 1013]

noncomputable def c8d5 : List ℝ := [725 / 733, 108 / 733]

noncomputable def c8docs : List (List ℝ) :=
  [c8d0, c8d0, c8d0, c8d3, c8d4, c8d5]

theorem c8_unit_0 : vec_norm c8d0 2 = 1 := by
  rw [show c8d0 = [(1 : ℝ), 0] from rfl]
  exact vec_norm_unit_two _ _ (by norm_num)

theorem c8_unit_3 : vec_norm c8d3 2 = 1 := by
  rw [show c8d3 = [(2915 : ℝ) / 2917, 108 / 2917] from rfl]
  exact vec_norm_unit_two _ _ (by norm_num)

theorem c8_unit_4 : vec_norm c8d4 2 = 1 := by
  rw [show c8d4 = [(1012 : ℝ) / 1013, 45 / 1013] from rfl]
  exact vec_norm_unit_two _ _ (by norm_num)

theorem c8_unit_5 : vec_norm c8d5 2 = 1 := by
  rw [show c8d5 = [(725 : ℝ) / 733, 108 / 733] from rfl]
  exact vec_norm_unit_two _ _ (by norm_num)

theorem c8_txn : txnScheme c8docs 6 2 = c8docs := by
  show [vec_normalize (c8docs.getD 0 []) 2,
    vec_normalize (c8docs.getD 1 []) 2,
    vec_normalize (c8docs.getD 2 []) 2,
    vec_normalize (c8docs.getD 3 []) 2,
    vec_normalize (c8docs.getD 4 []) 2,
    vec_normalize (c8docs.getD 5 []) 2] = _
  rw [show c8docs.getD 0 [] = c8d0 from rfl,
    show c8docs.getD 1 [] = c8d0 from rfl,
    show c8docs.getD 2 [] = c8d0 from rfl,
    show c8docs.getD 3 [] = c8d3 from rfl,
    show c8docs.getD 4 [] = c8d4 from rfl,
    show c8docs.getD 5 [] = c8d5 from rfl,
    vec_normalize_of_norm_one c8d0 rfl c8_unit_0,
    vec_normalize_of_norm_one c8d3 rfl c8_unit_3,
    vec_normalize_of_norm_one c8d4 rfl c8_unit_4,
    vec_normalize_of_norm_one c8d5 rfl c8_unit_5]
  rfl

theorem vec_sum_nil_two : vec_sum ([] : List (List ℝ)) 2 = [0, 0] := by
  unfold vec_sum
  rfl

theorem c8_sum_a : vec_sum [c8d0, c8d0, c8d0] 2 = [(3 : ℝ), 0] := by
  simp only [vec_sum_cons, vec_sum_one, vec_sum_nil_two]
  norm_num [c8d0]

theorem c8_sum_b : vec_sum [c8d3, c8d4, c8d5] 2 =
    [(6470608692 : ℝ) / 2165957093, 495541845 / 2165957093] := by
  simp only [vec_sum_cons, vec_sum_one, vec_sum_nil_two]
  norm_num [c8d3, c8d4, c8d5]

theorem c8_sum_11 : vec_sum [c8d0, c8d0, c8d0, c8d3] 2 =
    [(11666 : ℝ) / 2917, 108 / 2917] := by
  simp only [vec_sum_cons, vec_sum_one, vec_sum_nil_two]
  norm_num [c8d0, c8d3]

theorem c8_sum_12 : vec_sum [c8d4, c8d5] 2 =
    [(1476221 : ℝ) / 742529, 142389 / 742529] := by
  simp only [vec_sum_cons, vec_sum_one, vec_sum_nil_two]
  norm_num [c8d4, c8d5]

theorem c8_sum_21 : vec_sum [c8d0, c8d0, c8d0, c8d3, c8d4] 2 =
    [(14769662 : ℝ) / 2954921, 240669 / 2954921] := by
  simp only [vec_sum_cons, vec_sum_one, vec_sum_nil_two]
  norm_num [c8d0, c8d3, c8d4]

theorem c8_sum_5 : vec_sum [c8d5] 2 = [(725 : ℝ) / 733, 108 / 733] := by
  rw [vec_sum_one]
  norm_num [c8d5]

theorem c8_ne_a : vec_sum [c8d0, c8d0, c8d0] 2 ≠ List.replicate 2 0 :=
  vec_sum_ne_zero_two c8_sum_a (by norm_num)

theorem c8_ne_b : vec_sum [c8d3, c8d4, c8d5] 2 ≠ List.replicate 2 0 :=
  vec_sum_ne_zero_two c8_sum_b (by norm_num)

theorem c8_ne_11 : vec_sum [c8d0, c8d0, c8d0, c8d3] 2 ≠ List.replicate 2 0 :=
  vec_sum_ne_zero_two c8_sum_11 (by norm_num)

theorem c8_ne_12 : vec_sum [c8d4, c8d5] 2 ≠ List.replicate 2 0 :=
  vec_sum_ne_zero_two c8_sum_12 (by norm_num)

theorem c8_assign1_0 :
    assignOne c8d0 [computeConcept [c8d0, c8d0, c8d0] 2,
      computeConcept [c8d3, c8d4, c8d5] 2] 2 = 0 := by
  refine assignOne_pair_stays c8d0 [c8d0, c8d0, c8d0] [c8d3, c8d4, c8d5]
    c8_unit_0 c8_ne_a c8_ne_b ?_ ?_ ?_
  · rw [c8_sum_a, show c8d0 = [(1 : ℝ), 0] from rfl, vec_dot_two]
    norm_num
  · rw [c8_sum_b, show c8d0 = [(1 : ℝ), 0] from rfl, vec_dot_two]
    norm_num
  · rw [c8_sum_a, c8_sum_b, show c8d0 = [(1 : ℝ), 0] from rfl]
    simp only [vec_dot_two]
    norm_num

theorem c8_assign1_3 :
    assignOne c8d3 [computeConcept [c8d0, c8d0, c8d0] 2,
      computeConcept [c8d3, c8d4, c8d5] 2] 2 = 0 := by
  refine assignOne_pair_stays c8d3 [c8d0, c8d0, c8d0] [c8d3, c8d4, c8d5]
    c8_unit_3 c8_ne_a c8_ne_b ?_ ?_ ?_
  · rw [c8_sum_a, show c8d3 = [(2915 : ℝ) / 2917, 108 / 2917] from rfl,
      vec_dot_two]
    norm_num
  · rw [c8_sum_b, show c8d3 = [(2915 : ℝ) / 2917, 108 / 2917] from rfl,
      vec_dot_two]
    norm_num
  · rw [c8_sum_a, c8_sum_b,
      show c8d3 = [(2915 : ℝ) / 2917, 108 / 2917] from rfl]
    simp only [vec_dot_two]
    norm_num

theorem c8_assign1_4 :
    assignOne c8d4 [computeConcept [c8d0, c8d0, c8d0] 2,
      computeConcept [c8d3, c8d4, c8d5] 2] 2 = 1 := by
  refine assignOne_pair_moves c8d4 [c8d0, c8d0, c8d0] [c8d3, c8d4, c8d5]
    c8_unit_4 c8_ne_a c8_ne_b ?_ ?_ ?_
  · rw [c8_sum_a, show c8d4 = [(1012 : ℝ) / 1013, 45 / 1013] from rfl,
      vec_dot_two]
    norm_num
  · rw [c8_sum_b, show c8d4 = [(1012 : ℝ) / 1013, 45 / 1013] from rfl,
      vec_dot_two]
    norm_num
  · rw [c8_sum_a, c8_sum_b,
      show c8d4 = [(1012 : ℝ) / 1013, 45 / 1013] from rfl]
    simp only [vec_dot_two]
    norm_num

theorem c8_assign1_5 :
    assignOne c8d5 [computeConcept [c8d0, c8d0, c8d0] 2,
      computeConcept [c8d3, c8d4, c8d5] 2] 2 = 1 := by
  refine assignOne_pair_moves c8d5 [c8d0, c8d0, c8d0] [c8d3, c8d4, c8d5]
    c8_unit_5 c8_ne_a c8_ne_b ?_ ?_ ?_
  · rw [c8_sum_a, show c8d5 = [(725 : ℝ) / 733, 108 / 733] from rfl,
      vec_dot_two]
    norm_num
  · rw [c8_sum_b, show c8d5 = [(725 : ℝ) / 733, 108 / 733] from rfl,
      vec_dot_two]
    norm_num
  · rw [c8_sum_a, c8_sum_b,
      show c8d5 = [(725 : ℝ) / 733, 108 / 733] from rfl]
    simp only [vec_dot_two]
    norm_num

theorem initPartitions_62 : initPartitions 6 2 = [[0, 1, 2], [3, 4, 5]] := by
  decide

theorem c8_init : initState c8docs 2 6 2 =
    ⟨[[0, 1, 2], [3, 4, 5]],
     [computeConcept [c8d0, c8d0, c8d0] 2,
      computeConcept [c8d3, c8d4, c8d5] 2],
     3 + Real.sqrt (19443754773 / 2165957093), Q_THRESHOLD * 10, 0⟩ := by
  show EngineState.mk (initPartitions 6 2)
      ((initPartitions 6 2).map (fun p =>
        computeConcept (memberVecs (txnScheme c8docs 6 2) p) 2))
      (computeQuality
        ((initPartitions 6 2).map (memberVecs (txnScheme c8docs 6 2)))
        ((initPartitions 6 2).map (fun p =>
          computeConcept (memberVecs (txnScheme c8docs 6 2) p) 2)) 2 2)
      (Q_THRESHOLD * 10) 0 = _
  rw [c8_txn, initPartitions_62]
  show EngineState.mk [[0, 1, 2], [3, 4, 5]]
    [computeConcept [c8d0, c8d0, c8d0] 2, computeConcept [c8d3, c8d4, c8d5] 2]
    (computeQuality [[c8d0, c8d0, c8d0], [c8d3, c8d4, c8d5]]
      [computeConcept [c8d0, c8d0, c8d0] 2,
       computeConcept [c8d3, c8d4, c8d5] 2] 2 2)
    (Q_THRESHOLD * 10) 0 = _
  rw [computeQuality_two,
    computeQuality1_concept [c8d0, c8d0, c8d0] (by norm_num),
    computeQuality1_concept [c8d3, c8d4, c8d5] (by norm_num),
    c8_sum_a, c8_sum_b]
  rw [vec_dot_two, vec_dot_two]
  rw [sqrt_eval 3 (by norm_num) (by norm_num),
    show (6470608692 : ℝ) / 2165957093 * (6470608692 / 2165957093) +
      495541845 / 2165957093 * (495541845 / 2165957093) =
      19443754773 / 2165957093 by norm_num]

theorem c8_assignStep1 :
    assignStep c8docs
      [computeConcept [c8d0, c8d0, c8d0] 2,
       computeConcept [c8d3, c8d4, c8d5] 2] 2 = [[0, 1, 2, 3], [4, 5]] := by
  rw [show c8docs = [c8d0, c8d0, c8d0, c8d3, c8d4, c8d5] from rfl,
    assignStep_eval6]
  simp only [c8_assign1_0, c8_assign1_3, c8_assign1_4, c8_assign1_5]
  decide

noncomputable def c8FinalState : EngineState :=
  ⟨[[0, 1, 2, 3], [4, 5]],
   [computeConcept [c8d0, c8d0, c8d0, c8d3] 2, computeConcept [c8d4, c8d5] 2],
   Real.sqrt (46660 / 2917) + Real.sqrt (2962178 / 742529),
   Real.sqrt (46660 / 2917) + Real.sqrt (2962178 / 742529) -
     (3 + Real.sqrt (19443754773 / 2165957093)), 1⟩

theorem c8_step : stepState c8docs 2
    ⟨[[0, 1, 2], [3, 4, 5]],
     [computeConcept [c8d0, c8d0, c8d0] 2,
      computeConcept [c8d3, c8d4, c8d5] 2],
     3 + Real.sqrt (19443754773 / 2165957093), Q_THRESHOLD * 10, 0⟩ =
    c8FinalState := by
  show EngineState.mk
      (assignStep c8docs
        [computeConcept [c8d0, c8d0, c8d0] 2,
         computeConcept [c8d3, c8d4, c8d5] 2] 2)
      ((assignStep c8docs
        [computeConcept [c8d0, c8d0, c8d0] 2,
         computeConcept [c8d3, c8d4, c8d5] 2] 2).map
          (fun p => computeConcept (memberVecs c8docs p) 2))
      (computeQuality
        ((assignStep c8docs
          [computeConcept [c8d0, c8d0, c8d0] 2,
           computeConcept [c8d3, c8d4, c8d5] 2] 2).map (memberVecs c8docs))
        ((assignStep c8docs
          [computeConcept [c8d0, c8d0, c8d0] 2,
           computeConcept [c8d3, c8d4, c8d5] 2] 2).map
            (fun p => computeConcept (memberVecs c8docs p) 2))
        (assignStep c8docs
          [computeConcept [c8d0, c8d0, c8d0] 2,
           computeConcept [c8d3, c8d4, c8d5] 2] 2).length 2)
      (computeQuality
        ((assignStep c8docs
          [computeConcept [c8d0, c8d0, c8d0] 2,
           computeConcept [c8d3, c8d4, c8d5] 2] 2).map (memberVecs c8docs))
        ((assignStep c8docs
          [computeConcept [c8d0, c8d0, c8d0] 2,
           computeConcept [c8d3, c8d4, c8d5] 2] 2).map
            (fun p => computeConcept (memberVecs c8docs p) 2))
        (assignStep c8docs
          [computeConcept [c8d0, c8d0, c8d0] 2,
           computeConcept [c8d3, c8d4, c8d5] 2] 2).length 2 -
        (3 + Real.sqrt (19443754773 / 2165957093))) (0 + 1) = _
  rw [c8_assignStep1]
  show EngineState.mk [[0, 1, 2, 3], [4, 5]]
    [computeConcept [c8d0, c8d0, c8d0, c8d3] 2, computeConcept [c8d4, c8d5] 2]
    (computeQuality [[c8d0, c8d0, c8d0, c8d3], [c8d4, c8d5]]
      [computeConcept [c8d0, c8d0, c8d0, c8d3] 2,
       computeConcept [c8d4, c8d5] 2] 2 2)
    (computeQuality [[c8d0, c8d0, c8d0, c8d3], [c8d4, c8d5]]
      [computeConcept [c8d0, c8d0, c8d0, c8d3] 2,
       computeConcept [c8d4, c8d5] 2] 2 2 -
      (3 + Real.sqrt (19443754773 / 2165957093))) 1 = _
  rw [computeQuality_two,
    computeQuality1_concept [c8d0, c8d0, c8d0, c8d3] (by norm_num),
    computeQuality1_concept [c8d4, c8d5] (by norm_num),
    c8_sum_11, c8_sum_12]
  rw [vec_dot_two, vec_dot_two]
  rw [show (11666 : ℝ) / 2917 * (11666 / 2917) +
      108 / 2917 * (108 / 2917) = 46660 / 2917 by norm_num,
    show (1476221 : ℝ) / 742529 * (1476221 / 742529) +
      142389 / 742529 * (142389 / 742529) = 2962178 / 742529 by norm_num]
  rfl

theorem c8_dQ_le : ¬ (c8FinalState.dQ > Q_THRESHOLD) := by
  show ¬ (Real.sqrt (46660 / 2917) + Real.sqrt (2962178 / 742529) -
    (3 + Real.sqrt (19443754773 / 2165957093)) > Q_THRESHOLD)
  have h11 : Real.sqrt ((46660 : ℝ) / 2917) < 39994858 / 10 ^ 7 := by
    rw [Real.sqrt_lt' (by norm_num)]
    norm_num
  have h12 : Real.sqrt ((2962178 : ℝ) / 742529) < 19973256 / 10 ^ 7 := by
    rw [Real.sqrt_lt' (by norm_num)]
    norm_num
  have hb : (29961609 : ℝ) / 10 ^ 7 ≤
      Real.sqrt (19443754773 / 2165957093) := by
    rw [Real.le_sqrt (by norm_num) (by norm_num)]
    norm_num
  rw [not_lt]
  unfold Q_THRESHOLD
  linarith

theorem c8_trace : runSPKMeansTrace c8docs 2 6 2 5 = some c8FinalState := by
  unfold runSPKMeansTrace
  rw [c8_txn, c8_init, show (5 : ℕ) = 4 + 1 from rfl, loopGo_succ,
    if_pos (show (⟨[[0, 1, 2], [3, 4, 5]],
      [computeConcept [c8d0, c8d0, c8d0] 2,
       computeConcept [c8d3, c8d4, c8d5] 2],
      3 + Real.sqrt (19443754773 / 2165957093), Q_THRESHOLD * 10, 0⟩ :
        EngineState).dQ > Q_THRESHOLD by
      show Q_THRESHOLD * 10 > Q_THRESHOLD
      norm_num [Q_THRESHOLD])]
  rw [c8_step, show loopGo c8docs 2 4 = loopGo c8docs 2 (3 + 1) from rfl,
    loopGo_succ, if_neg c8_dQ_le]

theorem c8_assign2_0 :
    assignOne c8d0 [computeConcept [c8d0, c8d0, c8d0, c8d3] 2,
      computeConcept [c8d4, c8d5] 2] 2 = 0 := by
  refine assignOne_pair_stays c8d0 [c8d0, c8d0, c8d0, c8d3] [c8d4, c8d5]
    c8_unit_0 c8_ne_11 c8_ne_12 ?_ ?_ ?_
  · rw [c8_sum_11, show c8d0 = [(1 : ℝ), 0] from rfl, vec_dot_two]
    norm_num
  · rw [c8_sum_12, show c8d0 = [(1 : ℝ), 0] from rfl, vec_dot_two]
    norm_num
  · rw [c8_sum_11, c8_sum_12, show c8d0 = [(1 : ℝ), 0] from rfl]
    simp only [vec_dot_two]
    norm_num

theorem c8_assign2_3 :
    assignOne c8d3 [computeConcept [c8d0, c8d0, c8d0, c8d3] 2,
      computeConcept [c8d4, c8d5] 2] 2 = 0 := by
  refine assignOne_pair_stays c8d3 [c8d0, c8d0, c8d0, c8d3] [c8d4, c8d5]
    c8_unit_3 c8_ne_11 c8_ne_12 ?_ ?_ ?_
  · rw [c8_sum_11, show c8d3 = [(2915 : ℝ) / 2917, 108 / 2917] from rfl,
      vec_dot_two]
    norm_num
  · rw [c8_sum_12, show c8d3 = [(2915 : ℝ) / 2917, 108 / 2917] from rfl,
      vec_dot_two]
    norm_num
  · rw [c8_sum_11, c8_sum_12,
      show c8d3 = [(2915 : ℝ) / 2917, 108 / 2917] from rfl]
    simp only [vec_dot_two]
    norm_num

theorem c8_assign2_4 :
    assignOne c8d4 [computeConcept [c8d0, c8d0, c8d0, c8d3] 2,
      computeConcept [c8d4, c8d5] 2] 2 = 0 := by
  refine assignOne_pair_stays c8d4 [c8d0, c8d0, c8d0, c8d3] [c8d4, c8d5]
    c8_unit_4 c8_ne_11 c8_ne_12 ?_ ?_ ?_
  · rw [c8_sum_11, show c8d4 = [(1012 : ℝ) / 1013, 45 / 1013] from rfl,
      vec_dot_two]
    norm_num
  · rw [c8_sum_12, show c8d4 = [(1012 : ℝ) / 1013, 45 / 1013] from rfl,
      vec_dot_two]
    norm_num
  · rw [c8_sum_11, c8_sum_12,
      show c8d4 = [(1012 : ℝ) / 1013, 45 / 1013] from rfl]
    simp only [vec_dot_two]
    norm_num

theorem c8_assign2_5 :
    assignOne c8d5 [computeConcept [c8d0, c8d0, c8d0, c8d3] 2,
      computeConcept [c8d4, c8d5] 2] 2 = 1 := by
  refine assignOne_pair_moves c8d5 [c8d0, c8d0, c8d0, c8d3] [c8d4, c8d5]
    c8_unit_5 c8_ne_11 c8_ne_12 ?_ ?_ ?_
  · rw [c8_sum_11, show c8d5 = [(725 : ℝ) / 733, 108 / 733] from rfl,
      vec_dot_two]
    norm_num
  · rw [c8_sum_12, show c8d5 = [(725 : ℝ) / 733, 108 / 733] from rfl,
      vec_dot_two]
    norm_num
  · rw [c8_sum_11, c8_sum_12,
      show c8d5 = [(725 : ℝ) / 733, 108 / 733] from rfl]
    simp only [vec_dot_two]
    norm_num

theorem c8_assignStep2 :
    assignStep c8docs
      [computeConcept [c8d0, c8d0, c8d0, c8d3] 2,
       computeConcept [c8d4, c8d5] 2] 2 = [[0, 1, 2, 3, 4], [5]] := by
  rw [show c8docs = [c8d0, c8d0, c8d0, c8d3, c8d4, c8d5] from rfl,
    assignStep_eval6]
  simp only [c8_assign2_0, c8_assign2_3, c8_assign2_4, c8_assign2_5]
  decide

theorem c8_step2 : stepState c8docs 2 c8FinalState =
    ⟨[[0, 1, 2, 3, 4], [5]],
     [computeConcept [c8d0, c8d0, c8d0, c8d3, c8d4] 2,
      computeConcept [c8d5] 2],
     Real.sqrt (73843205 / 2954921) + 1,
     Real.sqrt (73843205 / 2954921) + 1 -
       (Real.sqrt (46660 / 2917) + Real.sqrt (2962178 / 742529)), 2⟩ := by
  show EngineState.mk
      (assignStep c8docs
        [computeConcept [c8d0, c8d0, c8d0, c8d3] 2,
         computeConcept [c8d4, c8d5] 2] 2)
      ((assignStep c8docs
        [computeConcept [c8d0, c8d0, c8d0, c8d3] 2,
         computeConcept [c8d4, c8d5] 2] 2).map
          (fun p => computeConcept (memberVecs c8docs p) 2))
      (computeQuality
        ((assignStep c8docs
          [computeConcept [c8d0, c8d0, c8d0, c8d3] 2,
           computeConcept [c8d4, c8d5] 2] 2).map (memberVecs c8docs))
        ((assignStep c8docs
          [computeConcept [c8d0, c8d0, c8d0, c8d3] 2,
           computeConcept [c8d4, c8d5] 2] 2).map
            (fun p => computeConcept (memberVecs c8docs p) 2))
        (assignStep c8docs
          [computeConcept [c8d0, c8d0, c8d0, c8d3] 2,
           computeConcept [c8d4, c8d5] 2] 2).length 2)
      (computeQuality
        ((assignStep c8docs
          [computeConcept [c8d0, c8d0, c8d0, c8d3] 2,
           computeConcept [c8d4, c8d5] 2] 2).map (memberVecs c8docs))
        ((assignStep c8docs
          [computeConcept [c8d0, c8d0, c8d0, c8d3] 2,
           computeConcept [c8d4, c8d5] 2] 2).map
            (fun p => computeConcept (memberVecs c8docs p) 2))
        (assignStep c8docs
          [computeConcept [c8d0, c8d0, c8d0, c8d3] 2,
           computeConcept [c8d4, c8d5] 2] 2).length 2 -
        (Real.sqrt (46660 / 2917) + Real.sqrt (2962178 / 742529))) (1 + 1) = _
  rw [c8_assignStep2]
  show EngineState.mk [[0, 1, 2, 3, 4], [5]]
    [computeConcept [c8d0, c8d0, c8d0, c8d3, c8d4] 2, computeConcept [c8d5] 2]
    (computeQuality [[c8d0, c8d0, c8d0, c8d3, c8d4], [c8d5]]
      [computeConcept [c8d0, c8d0, c8d0, c8d3, c8d4] 2,
       computeConcept [c8d5] 2] 2 2)
    (computeQuality [[c8d0, c8d0, c8d0, c8d3, c8d4], [c8d5]]
      [computeConcept [c8d0, c8d0, c8d0, c8d3, c8d4] 2,
       computeConcept [c8d5] 2] 2 2 -
      (Real.sqrt (46660 / 2917) + Real.sqrt (2962178 / 742529))) (1 + 1) = _
  rw [computeQuality_two,
    computeQuality1_concept [c8d0, c8d0, c8d0, c8d3, c8d4] (by norm_num),
    computeQuality1_concept [c8d5] (by norm_num),
    c8_sum_21, c8_sum_5]
  rw [vec_dot_two, vec_dot_two]
  rw [show (14769662 : ℝ) / 2954921 * (14769662 / 2954921) +
      240669 / 2954921 * (240669 / 2954921) = 73843205 / 2954921 by norm_num,
    show (725 : ℝ) / 733 * (725 / 733) + 108 / 733 * (108 / 733) = 1
      by norm_num,
    Real.sqrt_one]

theorem c8_dQ2_gt : Q_THRESHOLD <
    Real.sqrt (73843205 / 2954921) + 1 -
      (Real.sqrt (46660 / 2917) + Real.sqrt (2962178 / 742529)) := by
  have h11 : Real.sqrt ((46660 : ℝ) / 2917) < 39994858 / 10 ^ 7 := by
    rw [Real.sqrt_lt' (by norm_num)]
    norm_num
  have h12 : Real.sqrt ((2962178 : ℝ) / 742529) < 19973256 / 10 ^ 7 := by
    rw [Real.sqrt_lt' (by norm_num)]
    norm_num
  have h21 : (49989907 : ℝ) / 10 ^ 7 ≤
      Real.sqrt (73843205 / 2954921) := by
    rw [Real.le_sqrt (by norm_num) (by norm_num)]
    norm_num
  unfold Q_THRESHOLD
  linarith

/-- C8: the spec claims that once the loop has terminated (final dQ at or
below the 0.001 threshold), one more assignment+recompute+evaluate step on
the returned state again yields a quality delta at or below the threshold.
Counterexample: on `c8docs` the run terminates after one iteration with
`dQ ≤ 0.001`, but applying one further loop-body step to the returned state
produces a quality delta strictly above the threshold (the returned state
is not a fixed point of the iteration up to the threshold). -/
theorem claim_C8_counterexample :
    runSPKMeansTrace c8docs 2 6 2 5 = some c8FinalState ∧
    ¬ (c8FinalState.dQ > Q_THRESHOLD) ∧
    Q_THRESHOLD < (stepState (txnScheme c8docs 6 2) 2 c8FinalState).dQ := by
  refine ⟨c8_trace, c8_dQ_le, ?_⟩
  rw [c8_txn, c8_step2]
  exact c8_dQ2_gt

/-- C8 (amended): termination of the loop (final dQ at or below the
threshold) does not make the returned state a fixed point up to the
threshold: there are terminated runs on which one further
assignment+recompute+evaluate step yields a quality delta strictly above
the threshold. -/
theorem claim_C8_amended_not_fixed_point :
    ∃ (docs : List (List ℝ)) (k dc wc fuel : ℕ) (s : EngineState),
      runSPKMeansTrace docs k dc wc fuel = some s ∧
      ¬ (s.dQ > Q_THRESHOLD) ∧
      Q_THRESHOLD < (stepState (txnScheme docs dc wc) wc s).dQ :=
  ⟨c8docs, 2, 6, 2, 5, c8FinalState, c8_trace, c8_dQ_le, by
    rw [c8_txn, c8_step2]
    exact c8_dQ2_gt⟩

end SPKMeans
